import Mathlib

/-
  Verification development for the fnerd-falconpy RTR session-and-transfer
  engine.  Each definition below is a shallow embedding of a function of the
  Python source tree (file and line references are given in the doc comments);
  remote observations (process listings, file listings, HTTP responses, clock
  readings) are supplied as explicit environment values, so that each embedded
  control flow is a pure, executable Lean function of those observations.
-/

/- ===================================================================
   Object-storage verification
   (src/fnerd_falconpy/utils/cloud_storage.py, CloudStorageManager)
   =================================================================== -/

/-- Embedding of CloudStorageManager.verify_s3_upload
(src/fnerd_falconpy/utils/cloud_storage.py lines 133-198).
The head argument is the observed outcome of the head_object call:
some n means the object was found with ContentLength n; none covers the
404 branch, every other ClientError branch, and the outer exception
handler, all of which return False in the source.  With an expected size
supplied, the source compares actual_size == expected_size exactly
(line 176) and returns False on any mismatch (line 181); with no
expected size it returns True on mere existence (line 185). -/
def verify_s3_upload (head : Option Nat) (expected_size : Option Nat) : Bool :=
  match head with
  | none => false
  | some actual =>
    match expected_size with
    | some e => actual == e
    | none => true

/-- Modelled from the spec wording of section 4.4.2 for comparison with the
code: success would require the found size to match the expected size within
a tolerance of max of 1 KiB and 1 percent of the expected size (the formula
max(1024, expected * 0.01) that the repository uses elsewhere, in
collectors.py line 2195 and uac_collector.py line 1342, but not in
verify_s3_upload itself). -/
def verify_s3_upload_specTolerance (head : Option Nat) (expected_size : Option Nat) : Bool :=
  match head with
  | none => false
  | some actual =>
    match expected_size with
    | some e => decide (|(actual : ℚ) - (e : ℚ)| ≤ max 1024 ((e : ℚ) / 100))
    | none => true

/- ===================================================================
   Command execution
   (src/fnerd_falconpy/managers/managers.py, SessionManager.execute_command)
   =================================================================== -/

/-- One resource object of a check_command_status response
(managers.py lines 356-363).  The field exitStatus stands for the actual
exit status of the remote process; it is carried in the model only to let
claim C10 state that execute_command never consults it (the source reads
only complete, stdout and stderr from the resource). -/
structure CmdStatusResource where
  complete : Bool
  stdout : String
  stderr : String
  exitStatus : Int
deriving DecidableEq, Repr

/-- Embedding of the CommandResult dataclass (src/fnerd_falconpy/core/base.py
lines 41-48). -/
structure CommandResult where
  stdout : String
  stderr : String
  return_code : Int
  cloud_request_id : String
  complete : Bool
deriving DecidableEq, Repr

/-- Embedding of the status-polling loop of SessionManager.execute_command
(managers.py lines 338-387).  Each list element is one poll iteration:
none models a falsy result_response (line 352, return None); some none
models a response whose resource extraction raises KeyError or IndexError
(line 378, loop continues); some (some r) is a parsed resource.  If the
resource is complete, the source builds a CommandResult whose return_code
is 0 if stderr is empty and 1 otherwise (line 373); an incomplete resource
falls through to the next iteration.  An exhausted list models the
retry_count bound being reached (line 386, return None). -/
def executeCommandPoll (cloud_request_id : String) :
    List (Option (Option CmdStatusResource)) → Option CommandResult
  | [] => none
  | none :: _ => none
  | some none :: rest => executeCommandPoll cloud_request_id rest
  | some (some r) :: rest =>
    if r.complete then
      some { stdout := r.stdout, stderr := r.stderr,
             return_code := if r.stderr = "" then 0 else 1,
             cloud_request_id := cloud_request_id, complete := true }
    else
      executeCommandPoll cloud_request_id rest

/-- Replace the remote exit status carried by one poll observation. -/
def setExitStatus (v : Int) : Option (Option CmdStatusResource) → Option (Option CmdStatusResource)
  | some (some r) => some (some { r with exitStatus := v })
  | x => x

/-- Helper: the polling loop never reads the remote exit status. -/
theorem executeCommandPoll_exitStatus_irrelevant (rid : String) (v : Int) :
    ∀ polls, executeCommandPoll rid (polls.map (setExitStatus v)) =
      executeCommandPoll rid polls := by
  intro polls
  induction polls with
  | nil => rfl
  | cons p rest ih =>
    match p with
    | none => rfl
    | some none => simpa [executeCommandPoll, setExitStatus] using ih
    | some (some r) =>
      by_cases h : r.complete <;>
        simp [executeCommandPoll, setExitStatus, h, ih]

/- ===================================================================
   Claim theorems C2 and C10
   =================================================================== -/

/-- C2: the claim states that verify_s3_upload, given an expected size,
succeeds when the observed size matches within max(1 KiB, 1 percent); the
code (cloud_storage.py line 176) in fact requires exact equality.  At the
concrete input head = some 1000001, expected = some 1000000 the difference
of 1 byte is inside the claimed tolerance of max(1024, 10000), yet the
function returns false. -/
theorem c2_counterexample :
    verify_s3_upload (some 1000001) (some 1000000) = false ∧
    verify_s3_upload_specTolerance (some 1000001) (some 1000000) = true := by
  refine ⟨rfl, ?_⟩
  simp only [verify_s3_upload_specTolerance, decide_eq_true_eq]
  norm_num

/-- C2 (amended): when an expected size is supplied, verify_s3_upload
returns success iff head_object found the object and its size equals the
expected size exactly. -/
theorem c2_verify_s3_upload_exact (head : Option Nat) (e : Nat) :
    verify_s3_upload head (some e) = true ↔ head = some e := by
  cases head with
  | none => simp [verify_s3_upload]
  | some a => simp [verify_s3_upload]

/-- C10: every CommandResult returned by the execute_command polling loop
has return_code 0 iff the completed command produced empty stderr and 1
otherwise, and the result is independent of the remote process exit
status, which the loop never consults. -/
theorem c10_execute_command_return_code (rid : String)
    (polls : List (Option (Option CmdStatusResource))) (r : CommandResult)
    (h : executeCommandPoll rid polls = some r) :
    (r.return_code = 0 ↔ r.stderr = "") ∧
    (r.return_code = 1 ↔ r.stderr ≠ "") ∧
    (∀ v, executeCommandPoll rid (polls.map (setExitStatus v)) = some r) := by
  refine ⟨?_, ?_, ?_⟩
  · induction polls with
    | nil => simp [executeCommandPoll] at h
    | cons p rest ih =>
      match p with
      | none => simp [executeCommandPoll] at h
      | some none => exact ih (by simpa [executeCommandPoll] using h)
      | some (some res) =>
        by_cases hc : res.complete
        · simp only [executeCommandPoll, hc, if_true, Option.some.injEq] at h
          subst h
          by_cases hs : res.stderr = "" <;> simp [hs]
        · exact ih (by simpa [executeCommandPoll, hc] using h)
  · induction polls with
    | nil => simp [executeCommandPoll] at h
    | cons p rest ih =>
      match p with
      | none => simp [executeCommandPoll] at h
      | some none => exact ih (by simpa [executeCommandPoll] using h)
      | some (some res) =>
        by_cases hc : res.complete
        · simp only [executeCommandPoll, hc, if_true, Option.some.injEq] at h
          subst h
          by_cases hs : res.stderr = "" <;> simp [hs]
        · exact ih (by simpa [executeCommandPoll, hc] using h)
  · intro v
    rw [executeCommandPoll_exitStatus_irrelevant]
    exact h

/-- C10 witness: the theorem applied at a concrete completed poll whose
command wrote nothing to stderr. -/
theorem c10_witness :
    (CommandResult.return_code
        { stdout := "ok", stderr := "", return_code := 0,
          cloud_request_id := "R1", complete := true } = 0 ↔
      CommandResult.stderr
        { stdout := "ok", stderr := "", return_code := 0,
          cloud_request_id := "R1", complete := true } = "") ∧
    (CommandResult.return_code
        { stdout := "ok", stderr := "", return_code := 0,
          cloud_request_id := "R1", complete := true } = 1 ↔
      CommandResult.stderr
        { stdout := "ok", stderr := "", return_code := 0,
          cloud_request_id := "R1", complete := true } ≠ "") ∧
    (executeCommandPoll "R1"
        ([some (some { complete := true, stdout := "ok", stderr := "", exitStatus := 7 })].map
          (setExitStatus 5)) =
      some { stdout := "ok", stderr := "", return_code := 0,
             cloud_request_id := "R1", complete := true }) :=
  ⟨(c10_execute_command_return_code "R1"
      [some (some { complete := true, stdout := "ok", stderr := "", exitStatus := 7 })]
      { stdout := "ok", stderr := "", return_code := 0,
        cloud_request_id := "R1", complete := true }
      (by rfl)).1,
   (c10_execute_command_return_code "R1"
      [some (some { complete := true, stdout := "ok", stderr := "", exitStatus := 7 })]
      { stdout := "ok", stderr := "", return_code := 0,
        cloud_request_id := "R1", complete := true }
      (by rfl)).2.1,
   (c10_execute_command_return_code "R1"
      [some (some { complete := true, stdout := "ok", stderr := "", exitStatus := 7 })]
      { stdout := "ok", stderr := "", return_code := 0,
        cloud_request_id := "R1", complete := true }
      (by rfl)).2.2 5⟩

/- ===================================================================
   String machinery shared by the download-path embeddings:
   a model of the Python str.replace method and of pathlib suffix
   handling, both used by FileManager.download_file and the collectors
   when they derive the local evacuation filename.
   =================================================================== -/

/-- All-occurrence replacement in the manner of the Python str.replace
method: scan left to right, replace each non-overlapping occurrence of pat
with rep.  The source only ever calls replace with a nonempty pattern; with
an empty pattern this model leaves the string unchanged. -/
def pyReplace (pat rep : List Char) : List Char → List Char
  | [] => []
  | c :: rest =>
    if h : pat ≠ [] ∧ (c :: rest).take pat.length = pat then
      rep ++ pyReplace pat rep ((c :: rest).drop pat.length)
    else
      c :: pyReplace pat rep rest
termination_by s => s.length
decreasing_by
  · have hp : 0 < pat.length := List.length_pos.mpr h.1
    simp only [List.length_drop, List.length_cons]
    omega
  · simp

/-- Helper: the replace scan of the empty string is the empty string. -/
theorem pyReplace_nil (pat rep : List Char) : pyReplace pat rep [] = [] := by
  simp [pyReplace]

/-- Decidable self-overlap freedom of a pattern: no proper nonempty prefix
of pat, extended by the corresponding head of pat, reproduces pat.  A
pattern with this property cannot overlap itself, so the left-to-right
replace scan always consumes a trailing occurrence whole. -/
def overlapFree (pat : List Char) : Bool :=
  (List.range pat.length).all fun l =>
    l == 0 || (pat.take l ++ pat.take (pat.length - l) != pat)

/-- Helper: with an overlap-free pattern, a match of pat cannot start
strictly inside a shorter-than-pat block s that is followed by pat. -/
theorem overlapFree_no_boundary {pat : List Char} (hof : overlapFree pat = true)
    {s : List Char} (hs : s ≠ []) (hlen : s.length < pat.length)
    (heq : (s ++ pat).take pat.length = pat) : False := by
  have htk : (s ++ pat).take pat.length = s ++ pat.take (pat.length - s.length) := by
    rw [List.take_append_eq_append_take]
    congr 1
    exact List.take_of_length_le (le_of_lt hlen)
  rw [htk] at heq
  have hall := List.all_eq_true.mp hof s.length (List.mem_range.mpr hlen)
  have hne : s.length ≠ 0 := fun h => hs (List.eq_nil_of_length_eq_zero h)
  have htake : pat.take s.length = s := by
    conv_lhs => rw [← heq]
    exact List.take_left' rfl
  rcases Bool.or_eq_true_iff.mp hall with h0 | hne2
  · exact hne (by simpa using h0)
  · have : pat.take s.length ++ pat.take (pat.length - s.length) = pat := by
      rw [htake]; exact heq
    simp [bne_iff_ne] at hne2
    exact hne2 this

/-- Helper: replacing an overlap-free nonempty pattern in a string that ends
with that pattern yields a string that ends with the replacement. -/
theorem pyReplace_endsWith (pat rep : List Char) (hpat : pat ≠ [])
    (hof : overlapFree pat = true) :
    ∀ s : List Char, rep <:+ pyReplace pat rep (s ++ pat) := by
  have main : ∀ n, ∀ s : List Char, s.length = n → rep <:+ pyReplace pat rep (s ++ pat) := by
    intro n
    induction n using Nat.strong_induction_on with
    | _ n ih =>
      intro s hs
      match s with
      | [] =>
        obtain ⟨c, ps, hcp⟩ : ∃ c ps, pat = c :: ps := by
          cases pat with
          | nil => exact absurd rfl hpat
          | cons c ps => exact ⟨c, ps, rfl⟩
        rw [List.nil_append, hcp, pyReplace]
        rw [dif_pos ⟨by simp, by rw [← hcp]; rw [hcp]; exact List.take_length _⟩]
        rw [← hcp, hcp, List.drop_length]
        rw [pyReplace_nil, List.append_nil]
      | c :: s' =>
        rw [List.cons_append, pyReplace]
        by_cases hcond : pat ≠ [] ∧ (c :: (s' ++ pat)).take pat.length = pat
        · rw [dif_pos hcond]
          by_cases hlen : pat.length ≤ (c :: s').length
          · have hdrop : (c :: (s' ++ pat)).drop pat.length =
                (c :: s').drop pat.length ++ pat := by
              rw [← List.cons_append, List.drop_append_eq_append_drop]
              congr 1
              rw [Nat.sub_eq_zero_of_le hlen, List.drop_zero]
            rw [hdrop]
            have hlt : ((c :: s').drop pat.length).length < n := by
              rw [List.length_drop]
              have hp : 0 < pat.length := List.length_pos.mpr hpat
              omega
            have := ih _ hlt ((c :: s').drop pat.length) rfl
            exact this.trans (List.suffix_append rep _)
          · push_neg at hlen
            exfalso
            exact overlapFree_no_boundary hof (s := c :: s') (by simp) hlen
              (by rw [List.cons_append]; exact hcond.2)
        · rw [dif_neg hcond]
          have hlt : s'.length < n := by simp at hs; omega
          have := ih _ hlt s' rfl
          exact this.trans (List.suffix_cons c _)
  exact fun s => main s.length s rfl

/-- Helper: if an overlap-free nonempty pattern does not occur inside s,
replacing it in s followed by one trailing occurrence replaces exactly that
trailing occurrence. -/
theorem pyReplace_of_no_occurrence (pat rep : List Char) (hpat : pat ≠ [])
    (hof : overlapFree pat = true) :
    ∀ s : List Char, ¬ pat <:+: s → pyReplace pat rep (s ++ pat) = s ++ rep := by
  have main : ∀ n, ∀ s : List Char, s.length = n → ¬ pat <:+: s →
      pyReplace pat rep (s ++ pat) = s ++ rep := by
    intro n
    induction n using Nat.strong_induction_on with
    | _ n ih =>
      intro s hs hinf
      match s with
      | [] =>
        obtain ⟨c, ps, hcp⟩ : ∃ c ps, pat = c :: ps := by
          cases pat with
          | nil => exact absurd rfl hpat
          | cons c ps => exact ⟨c, ps, rfl⟩
        rw [List.nil_append, hcp, pyReplace]
        rw [dif_pos ⟨by simp, by rw [← hcp]; rw [hcp]; exact List.take_length _⟩]
        rw [← hcp, hcp, List.drop_length]
        rw [pyReplace_nil, List.append_nil, List.nil_append]
      | c :: s' =>
        rw [List.cons_append, pyReplace]
        by_cases hcond : pat ≠ [] ∧ (c :: (s' ++ pat)).take pat.length = pat
        · exfalso
          by_cases hlen : pat.length ≤ (c :: s').length
          · apply hinf
            have hp : pat = (c :: s').take pat.length := by
              conv_lhs => rw [← hcond.2]
              rw [← List.cons_append, List.take_append_eq_append_take,
                Nat.sub_eq_zero_of_le hlen, List.take_zero, List.append_nil]
            refine ⟨[], (c :: s').drop pat.length, ?_⟩
            rw [List.nil_append]
            conv_rhs => rw [← List.take_append_drop pat.length (c :: s'), ← hp]
          · push_neg at hlen
            exact overlapFree_no_boundary hof (s := c :: s') (by simp) hlen
              (by rw [List.cons_append]; exact hcond.2)
        · rw [dif_neg hcond]
          have hlt : s'.length < n := by simp at hs; omega
          have hinf' : ¬ pat <:+: s' := by
            intro ⟨a, b, hab⟩
            exact hinf ⟨c :: a, b, by rw [← hab]; simp⟩
          rw [ih _ hlt s' rfl hinf', List.cons_append]
  exact fun s => main s.length s rfl

/- ===================================================================
   Pathlib suffix handling used by FileManager.download_file
   (src/fnerd_falconpy/managers/managers.py lines 503-520)
   =================================================================== -/

/-- The final path component in the manner of pathlib (the characters after
the last slash).  Paths are modelled as already normalised POSIX strings, the
form in which the collectors pass them. -/
def pyNameChars (p : List Char) : List Char :=
  (p.reverse.takeWhile (fun c => c ≠ '/')).reverse

/-- The suffix of a path in the manner of the pathlib Path.suffix property:
the substring of the name from its last dot, provided that dot is neither the
first nor past the last character of the name; otherwise the empty suffix. -/
def pySuffixChars (p : List Char) : List Char :=
  let n := pyNameChars p
  let after := n.reverse.takeWhile (fun c => c ≠ '.')
  if ('.' ∈ n) ∧ after.length + 1 < n.length ∧ 0 < after.length then
    (n.reverse.take (after.length + 1)).reverse
  else []

/-- Path.with_suffix in the manner of pathlib: when the path has a nonempty
suffix, that suffix (a trailing segment of the path string) is replaced by the
new one; with an empty suffix the new one is appended. -/
def pyWithSuffixChars (p : List Char) (newSuffix : List Char) : List Char :=
  if pySuffixChars p = [] then p ++ newSuffix
  else p.take (p.length - (pySuffixChars p).length) ++ newSuffix

/-- Helper: the name of a path is a suffix of the path. -/
theorem pyNameChars_suffix (p : List Char) : pyNameChars p <:+ p := by
  have h1 : p.reverse.takeWhile (fun c => c ≠ '/') <+: p.reverse :=
    List.takeWhile_prefix _
  have h2 : (p.reverse.takeWhile (fun c => c ≠ '/')).reverse <:+ p.reverse.reverse :=
    List.reverse_suffix.mpr h1
  simpa [pyNameChars] using h2

/-- Helper: reversing an initial segment of the reversal yields a suffix. -/
theorem reverse_take_reverse_suffix (l : List Char) (k : ℕ) :
    (l.reverse.take k).reverse <:+ l := by
  have h1 : l.reverse.take k <+: l.reverse := List.take_prefix k l.reverse
  have h2 := List.reverse_suffix.mpr h1
  rwa [List.reverse_reverse] at h2

/-- Helper: the suffix of a path is a suffix of the path string. -/
theorem pySuffixChars_suffix (p : List Char) : pySuffixChars p <:+ p := by
  rw [pySuffixChars]
  split
  · exact (reverse_take_reverse_suffix (pyNameChars p) _).trans (pyNameChars_suffix p)
  · exact List.nil_suffix

/-- Embedding of the local-path adjustment at the top of
FileManager.download_file (managers.py lines 503-520): a path already ending
in the 7z suffix is kept; a path whose pathlib suffix is one of .zip, .tar,
.gz, .tar.gz or .vhdx has that suffix replaced by .7z (the .tar.gz list
entry is unreachable, since a pathlib suffix contains a single dot, and is
kept only for fidelity to the source list on line 514); any other path gets
.7z appended. -/
def adjustLocalPathChars (p : List Char) : List Char :=
  if pySuffixChars p = ".7z".data then p
  else if pySuffixChars p = ".zip".data ∨ pySuffixChars p = ".tar".data ∨
      pySuffixChars p = ".gz".data ∨ pySuffixChars p = ".tar.gz".data ∨
      pySuffixChars p = ".vhdx".data then
    pyWithSuffixChars p (".7z".data)
  else p ++ ".7z".data

/-- String-level wrapper for the download_file local-path adjustment. -/
def adjustLocalPath (p : String) : String :=
  ⟨adjustLocalPathChars p.data⟩

/-- Python str.endswith on our string model. -/
def pyEndsWith (s suf : String) : Bool :=
  decide (suf.data <:+ s.data)

/-- Embedding of the local filename computation of
UACCollector.download_uac_results (uac_collector.py lines 1266-1310): the
collection file name is given the .tar.gz extension when missing, and the
local name is that string with .tar.gz replaced by .7z. -/
def uacActualFile (collection_file : String) : String :=
  if pyEndsWith collection_file ".tar.gz" then collection_file
  else collection_file ++ ".tar.gz"

/-- The .7z local filename written by the UAC download path
(uac_collector.py line 1310). -/
def uacLocalFilename (collection_file : String) : String :=
  ⟨pyReplace ".tar.gz".data ".7z".data (uacActualFile collection_file).data⟩

/-- Embedding of the local filename computation of
ForensicCollector.download_kape_results (collectors.py lines 2144-2168): the
collection file name is given the .zip extension when missing, and the local
name is that string with .zip replaced by .7z. -/
def kapeCollectionFileZip (collection_file : String) : String :=
  if pyEndsWith collection_file ".zip" then collection_file
  else collection_file ++ ".zip"

/-- The .7z local filename written by the KAPE download path
(collectors.py line 2168). -/
def kapeLocalFilename (collection_file : String) : String :=
  ⟨pyReplace ".zip".data ".7z".data (kapeCollectionFileZip collection_file).data⟩

/-- Helper: the adjusted download path always ends in .7z. -/
theorem adjustLocalPathChars_endsWith (p : List Char) :
    ".7z".data <:+ adjustLocalPathChars p := by
  rw [adjustLocalPathChars]
  split
  · next h => rw [← h]; exact pySuffixChars_suffix p
  · split
    · rw [pyWithSuffixChars]
      split
      · exact List.suffix_append _ _
      · exact List.suffix_append _ _
    · exact List.suffix_append _ _

/-- Helper: replacing a guaranteed trailing .tar.gz with .7z leaves a
string ending in .7z. -/
theorem uacLocalFilename_endsWith (f : String) :
    ".7z".data <:+ (uacLocalFilename f).data := by
  have hpat : (".tar.gz".data : List Char) ≠ [] := by decide
  have hof : overlapFree ".tar.gz".data = true := by decide
  rw [uacLocalFilename]
  show ".7z".data <:+ pyReplace ".tar.gz".data ".7z".data (uacActualFile f).data
  rw [uacActualFile]
  split
  · next h =>
    obtain ⟨s, hsuf⟩ := of_decide_eq_true h
    rw [← hsuf]
    exact pyReplace_endsWith _ _ hpat hof s
  · rw [String.data_append]
    exact pyReplace_endsWith _ _ hpat hof f.data

/-- Helper: replacing a guaranteed trailing .zip with .7z leaves a string
ending in .7z. -/
theorem kapeLocalFilename_endsWith (f : String) :
    ".7z".data <:+ (kapeLocalFilename f).data := by
  have hpat : (".zip".data : List Char) ≠ [] := by decide
  have hof : overlapFree ".zip".data = true := by decide
  rw [kapeLocalFilename]
  show ".7z".data <:+ pyReplace ".zip".data ".7z".data (kapeCollectionFileZip f).data
  rw [kapeCollectionFileZip]
  split
  · next h =>
    obtain ⟨s, hsuf⟩ := of_decide_eq_true h
    rw [← hsuf]
    exact pyReplace_endsWith _ _ hpat hof s
  · rw [String.data_append]
    exact pyReplace_endsWith _ _ hpat hof f.data

/- ===================================================================
   Pull download
   (src/fnerd_falconpy/managers/managers.py, FileManager.download_file,
    lines 487-726)
   =================================================================== -/

/-- Kernel-reducible maximum on the rationals (equal to max, below). -/
def ratMax (a b : ℚ) : ℚ := if a ≤ b then b else a

/-- Helper: ratMax is the lattice maximum. -/
theorem ratMax_eq_max (a b : ℚ) : ratMax a b = max a b := by
  rw [ratMax, max_def]

/-- The observable control-plane actions of a pull download, recorded so
that theorems can speak about what the loop issues (in particular, that the
get command is issued exactly once and when sessions are pulsed). -/
inductive DLAction
  | issueGet
  | pulse
  | listFiles
  | fetchContent
  | writeLocal (path : String)
deriving DecidableEq, Repr

/-- One iteration of the phase A status-polling loop of download_file
(managers.py lines 561-586): t is the clock reading time.time() - poll_start
at the start of the iteration; res is the parsed resource of
check_active_responder_command_status, with none covering a falsy response
and a KeyError or IndexError during extraction (lines 571-580), both of
which make the iteration fall through to the next poll. -/
structure GetPollObs where
  t : ℚ
  res : Option CmdStatusResource
deriving DecidableEq, Repr

inductive PhaseAOutcome
  | fail
  | done
  | fuelOut
deriving DecidableEq, Repr

/-- Embedding of the phase A polling loop (managers.py lines 561-586): an
iteration whose elapsed time exceeds the timeout returns failure (line 563);
a complete resource with nonempty stderr is a hard failure (line 575); a
complete resource with empty stderr leaves the loop; anything else polls
again.  An exhausted observation list is an undetermined (fuelOut) run,
since the source loop has no iteration bound of its own. -/
def phaseALoop (timeout : ℚ) : List GetPollObs → PhaseAOutcome
  | [] => .fuelOut
  | o :: rest =>
    if o.t > timeout then .fail
    else
      match o.res with
      | some r =>
        if r.complete then (if r.stderr ≠ "" then .fail else .done)
        else phaseALoop timeout rest
      | none => phaseALoop timeout rest

/-- Embedding of the dynamic timeout computation of download_file
(managers.py lines 548-557): a known positive file size yields
max(600, file_size / (30 * 1024)) seconds; otherwise 18000 seconds.  The
Python guard is written if file_size and file_size > 0, which is
equivalent to file_size > 0 for an integer. -/
def estimatedTimeout (file_size : ℤ) : ℚ :=
  if file_size > 0 then ratMax 600 (mkRat file_size (30 * 1024))
  else 18000

/-- One entry of a list_files_v2 resource list (managers.py lines 627-631):
the cloud_request_id it belongs to and its sha256 field, which can still be
absent while the cloud is ingesting the file. -/
structure SessionFileEntry where
  cloud_request_id : String
  sha256 : Option String
deriving DecidableEq, Repr

/-- The scan of the file list performed on lines 628-631: the sha256 field
of the first entry whose cloud_request_id matches the issued get command
(none when no entry matches). -/
def firstMatchSha (rid : String) : List SessionFileEntry → Option (Option String)
  | [] => none
  | e :: rest =>
    if e.cloud_request_id = rid then some e.sha256 else firstMatchSha rid rest

/-- One iteration of the SHA-retrieval loop (managers.py lines 604-639):
t is time.time() - sha_wait_start at the start of the iteration, modelled
at whole-second granularity; pulseOk is
the pulse_session result, consulted only when a pulse is due; files is the
resource list of list_files_v2 when the response has status 200, with none
covering a falsy or non-200 response (line 625). -/
structure ShaObs where
  t : ℤ
  pulseOk : Bool
  files : Option (List SessionFileEntry)
deriving DecidableEq, Repr

/-- The sha value an iteration observes: the sha256 of the first matching
entry, when a 200 file list is available and that entry carries one. -/
def obsSha (rid : String) (o : ShaObs) : Option String :=
  match o.files with
  | none => none
  | some fs =>
    match firstMatchSha rid fs with
    | none => none
    | some sh => sh

inductive ShaOutcome
  | fail
  | got (sha : String)
  | fuelOut
deriving DecidableEq, Repr

/-- Embedding of the SHA-retrieval loop of download_file (managers.py lines
593-639).  State per iteration, in source order: if the elapsed time
exceeds the 2000 second sha_timeout the download fails (line 608); if at
least sha_pulse_interval = 300 seconds have passed since the last pulse,
the session is pulsed, a failed pulse aborting with failure (line 621) and a
successful one resetting the pulse clock; then list_files_v2 is polled and
the first entry matching the cloud request id is read; a sha ends the loop,
otherwise it continues.  lastPulse is measured on the same clock as t, and
is 0 at entry because last_sha_pulse_time is taken at phase start (line
600).  The original get command is never re-issued: no iteration emits
issueGet.  An exhausted observation list is an undetermined run. -/
def shaLoop (rid : String) (lastPulse : ℤ) :
    List ShaObs → ShaOutcome × List DLAction
  | [] => (.fuelOut, [])
  | o :: rest =>
    if o.t > 2000 then (.fail, [])
    else if o.t - lastPulse ≥ 300 then
      if o.pulseOk then
        match obsSha rid o with
        | some sha => (.got sha, [.pulse, .listFiles])
        | none =>
          let r := shaLoop rid o.t rest
          (r.1, .pulse :: .listFiles :: r.2)
      else (.fail, [.pulse])
    else
      match obsSha rid o with
      | some sha => (.got sha, [.listFiles])
      | none =>
        let r := shaLoop rid lastPulse rest
        (r.1, .listFiles :: r.2)

/-- One iteration of the content-fetch loop (managers.py lines 667-719):
t is time.time() - content_wait_start; pulseOk is the pulse result when a
pulse is due (a failed pulse here only logs a warning, line 679); fetched
is some n when get_extracted_file_contents returned a byte payload of
length n, none for any structured (dict) response, which only causes
another poll; savedSize is the on-disk size observed after writing. -/
structure ContentObs where
  t : ℤ
  pulseOk : Bool
  fetched : Option ℕ
  savedSize : ℕ
deriving DecidableEq, Repr

/-- Embedding of the content-fetch loop of download_file (managers.py lines
655-722): the 18000 second content_timeout fails the download (line 668); a
due pulse (300 second interval) is emitted, its failure being non-fatal; a
byte payload is written to the .7z local path and the saved size is
compared with the payload length, a mismatch failing the download (line
698) and a match returning success; any structured response polls again.
An exhausted observation list models the max_retries bound being reached
(line 721), which returns failure. -/
def contentLoop (localPath : String) (lastPulse : ℤ) :
    List ContentObs → Bool × List DLAction
  | [] => (false, [])
  | o :: rest =>
    if o.t > 18000 then (false, [])
    else
      let pulseActs : List DLAction :=
        if o.t - lastPulse ≥ 300 then [.pulse] else []
      let lp : ℤ := if o.t - lastPulse ≥ 300 ∧ o.pulseOk then o.t else lastPulse
      match o.fetched with
      | some n =>
        if o.savedSize ≠ n then (false, pulseActs ++ [.fetchContent, .writeLocal localPath])
        else (true, pulseActs ++ [.fetchContent, .writeLocal localPath])
      | none =>
        let r := contentLoop localPath lp rest
        (r.1, pulseActs ++ .fetchContent :: r.2)

/-- The observations a pull download consumes (managers.py lines 487-726):
the local path and expected file size passed by the caller, whether the get
command submission succeeded with status 201 (line 531), the extracted
cloud_request_id (none modelling a KeyError or IndexError on line 537), and
the three phase observation lists. -/
structure DownloadEnv where
  localPath : String
  file_size : ℤ
  getCmdOk : Bool
  cloudRequestId : Option String
  getPolls : List GetPollObs
  shaPolls : List ShaObs
  contentPolls : List ContentObs
deriving DecidableEq, Repr

inductive DownloadOutcome
  | success
  | failure
  | fuelOut
deriving DecidableEq, Repr

/-- Embedding of FileManager.download_file (managers.py lines 487-726): the
local path is adjusted to a .7z name, the get command is issued once, its
polling uses the size-derived timeout, then the SHA-retrieval and
content-fetch phases run in sequence; a failure in any phase fails the
download. -/
def download_file (env : DownloadEnv) : DownloadOutcome × List DLAction :=
  let path7z := adjustLocalPath env.localPath
  if ¬ env.getCmdOk then (.failure, [.issueGet])
  else
    match env.cloudRequestId with
    | none => (.failure, [.issueGet])
    | some rid =>
      match phaseALoop (estimatedTimeout env.file_size) env.getPolls with
      | .fail => (.failure, [.issueGet])
      | .fuelOut => (.fuelOut, [.issueGet])
      | .done =>
        match shaLoop rid 0 env.shaPolls with
        | (.fail, acts) => (.failure, .issueGet :: acts)
        | (.fuelOut, acts) => (.fuelOut, .issueGet :: acts)
        | (.got _, acts) =>
          match contentLoop path7z 0 env.contentPolls with
          | (true, acts2) => (.success, .issueGet :: acts ++ acts2)
          | (false, acts2) => (.failure, .issueGet :: acts ++ acts2)

/-- Helper: a phase A trace with no completed resource that reaches an
iteration past the deadline fails. -/
theorem phaseALoop_timeout (timeout : ℚ) :
    ∀ obs : List GetPollObs,
      (∀ o ∈ obs, ∀ r, o.res = some r → r.complete = false) →
      (∃ o ∈ obs, o.t > timeout) → phaseALoop timeout obs = .fail := by
  intro obs
  induction obs with
  | nil => intro _ h; simp at h
  | cons o rest ih =>
    intro hnc hex
    rw [phaseALoop]
    by_cases ht : o.t > timeout
    · rw [if_pos ht]
    · rw [if_neg ht]
      have hrest : ∃ o ∈ rest, o.t > timeout := by
        obtain ⟨w, hw, hwt⟩ := hex
        rcases List.mem_cons.mp hw with h | h
        · exact absurd (h ▸ hwt) ht
        · exact ⟨w, h, hwt⟩
      have ihr := ih (fun x hx r hr => hnc x (List.mem_cons_of_mem o hx) r hr) hrest
      match hres : o.res with
      | none => exact ihr
      | some r =>
        have := hnc o (List.mem_cons_self o rest) r hres
        simp [this, ihr]

/-- Helper: success of the SHA loop exhibits a matching file-list entry
observed within the 2000 second deadline. -/
theorem shaLoop_got_mem (rid : String) :
    ∀ (obs : List ShaObs) (lp : ℤ) (sha : String),
      (shaLoop rid lp obs).1 = .got sha →
      ∃ o ∈ obs, o.t ≤ 2000 ∧ obsSha rid o = some sha := by
  intro obs
  induction obs with
  | nil => intro lp sha h; simp [shaLoop] at h
  | cons o rest ih =>
    intro lp sha h
    rw [shaLoop] at h
    by_cases ht : o.t > 2000
    · rw [if_pos ht] at h; simp at h
    · rw [if_neg ht] at h
      by_cases hdue : o.t - lp ≥ 300
      · rw [if_pos hdue] at h
        by_cases hp : o.pulseOk = true
        · rw [if_pos hp] at h
          match hs : obsSha rid o with
          | some sh =>
            rw [hs] at h
            simp at h
            exact ⟨o, List.mem_cons_self o rest, le_of_not_lt ht, by rw [hs, h]⟩
          | none =>
            rw [hs] at h
            simp at h
            obtain ⟨w, hw, hw2⟩ := ih o.t sha h
            exact ⟨w, List.mem_cons_of_mem o hw, hw2⟩
        · rw [if_neg hp] at h; simp at h
      · rw [if_neg hdue] at h
        match hs : obsSha rid o with
        | some sh =>
          rw [hs] at h
          simp at h
          exact ⟨o, List.mem_cons_self o rest, le_of_not_lt ht, by rw [hs, h]⟩
        | none =>
          rw [hs] at h
          simp at h
          obtain ⟨w, hw, hw2⟩ := ih lp sha h
          exact ⟨w, List.mem_cons_of_mem o hw, hw2⟩

/-- Helper: an iteration reached past the 2000 second deadline fails the
SHA loop at once. -/
theorem shaLoop_timeout_step (rid : String) (lp : ℤ) (o : ShaObs)
    (rest : List ShaObs) (h : o.t > 2000) :
    (shaLoop rid lp (o :: rest)).1 = .fail := by
  rw [shaLoop, if_pos h]

/-- Helper: a due pulse that fails aborts the SHA loop at once. -/
theorem shaLoop_pulse_fail_step (rid : String) (lp : ℤ) (o : ShaObs)
    (rest : List ShaObs) (ht : ¬ o.t > 2000) (hdue : o.t - lp ≥ 300)
    (hp : o.pulseOk = false) :
    (shaLoop rid lp (o :: rest)).1 = .fail := by
  rw [shaLoop, if_neg ht, if_pos hdue, if_neg (by rw [hp]; exact Bool.false_ne_true)]

/-- Gap predicate: every iteration of the trace happens less than 300
seconds after the (never advanced) last pulse. -/
def shaGapsSmall (lp : ℤ) : List ShaObs → Prop
  | [] => True
  | o :: rest => o.t - lp < 300 ∧ shaGapsSmall lp rest

/-- Helper: the SHA loop emits no pulse when no iteration is 300 seconds
past the last pulse. -/
theorem shaLoop_no_pulse_when_not_due (rid : String) :
    ∀ (obs : List ShaObs) (lp : ℤ), shaGapsSmall lp obs →
      (shaLoop rid lp obs).2.count DLAction.pulse = 0 := by
  intro obs
  induction obs with
  | nil => intro lp _; simp [shaLoop]
  | cons o rest ih =>
    intro lp hg
    obtain ⟨hg1, hg2⟩ := hg
    rw [shaLoop]
    by_cases ht : o.t > 2000
    · rw [if_pos ht]; simp
    · rw [if_neg ht, if_neg (not_le.mpr hg1)]
      match hs : obsSha rid o with
      | some sh => simp
      | none =>
        simp only []
        have := ih lp hg2
        simp [List.count_cons, this]

/-- Helper: a due pulse is emitted by the iteration that reaches it. -/
theorem shaLoop_pulse_due_emitted (rid : String) (lp : ℤ) (o : ShaObs)
    (rest : List ShaObs) (ht : ¬ o.t > 2000) (hdue : o.t - lp ≥ 300) :
    DLAction.pulse ∈ (shaLoop rid lp (o :: rest)).2 := by
  rw [shaLoop, if_neg ht, if_pos hdue]
  by_cases hp : o.pulseOk = true
  · rw [if_pos hp]
    match hs : obsSha rid o with
    | some sh => simp
    | none => simp
  · rw [if_neg hp]; simp

/-- Helper: the SHA loop never issues a get command. -/
theorem shaLoop_no_issueGet (rid : String) :
    ∀ (obs : List ShaObs) (lp : ℤ),
      DLAction.issueGet ∉ (shaLoop rid lp obs).2 := by
  intro obs
  induction obs with
  | nil => intro lp; simp [shaLoop]
  | cons o rest ih =>
    intro lp
    rw [shaLoop]
    by_cases ht : o.t > 2000
    · rw [if_pos ht]; simp
    · rw [if_neg ht]
      by_cases hdue : o.t - lp ≥ 300
      · rw [if_pos hdue]
        by_cases hp : o.pulseOk = true
        · rw [if_pos hp]
          match hs : obsSha rid o with
          | some sh => simp
          | none => simpa using ih o.t
        · rw [if_neg hp]; simp
      · rw [if_neg hdue]
        match hs : obsSha rid o with
        | some sh => simp
        | none => simpa using ih lp

/-- Helper: the content loop never issues a get command. -/
theorem contentLoop_no_issueGet (p : String) :
    ∀ (obs : List ContentObs) (lp : ℤ),
      DLAction.issueGet ∉ (contentLoop p lp obs).2 := by
  intro obs
  induction obs with
  | nil => intro lp; simp [contentLoop]
  | cons o rest ih =>
    intro lp
    rw [contentLoop]
    by_cases ht : o.t > 18000
    · rw [if_pos ht]; simp
    · rw [if_neg ht]
      match hf : o.fetched with
      | some n =>
        by_cases hsz : o.savedSize ≠ n <;>
          by_cases hdue : o.t - lp ≥ 300 <;>
            simp [hsz, hdue]
      | none =>
        by_cases hdue : o.t - lp ≥ 300 <;>
          simp [hdue, ih]

/-- Helper: every write the content loop performs targets its local path. -/
theorem contentLoop_write_target (p : String) :
    ∀ (obs : List ContentObs) (lp : ℤ) (s : String),
      DLAction.writeLocal s ∈ (contentLoop p lp obs).2 → s = p := by
  intro obs
  induction obs with
  | nil => intro lp s h; simp [contentLoop] at h
  | cons o rest ih =>
    intro lp s h
    rw [contentLoop] at h
    by_cases ht : o.t > 18000
    · rw [if_pos ht] at h; simp at h
    · rw [if_neg ht] at h
      match hf : o.fetched with
      | some n =>
        rw [hf] at h
        by_cases hsz : o.savedSize ≠ n <;>
          by_cases hdue : o.t - lp ≥ 300 <;>
            · simp [hsz, hdue] at h
              first
              | exact h
              | exact h.symm
      | none =>
        rw [hf] at h
        by_cases hdue : o.t - lp ≥ 300 <;>
          · simp [hdue] at h
            exact ih _ s h

/-- Helper: the SHA loop never writes local files. -/
theorem shaLoop_no_write (rid : String) :
    ∀ (obs : List ShaObs) (lp : ℤ) (s : String),
      DLAction.writeLocal s ∉ (shaLoop rid lp obs).2 := by
  intro obs
  induction obs with
  | nil => intro lp s; simp [shaLoop]
  | cons o rest ih =>
    intro lp s
    rw [shaLoop]
    by_cases ht : o.t > 2000
    · rw [if_pos ht]; simp
    · rw [if_neg ht]
      by_cases hdue : o.t - lp ≥ 300
      · rw [if_pos hdue]
        by_cases hp : o.pulseOk = true
        · rw [if_pos hp]
          match hs : obsSha rid o with
          | some sh => simp
          | none => simpa using ih o.t s
        · rw [if_neg hp]; simp
      · rw [if_neg hdue]
        match hs : obsSha rid o with
        | some sh => simp
        | none => simpa using ih lp s

/-- Helper: a failed phase A fails the download. -/
theorem download_file_phaseA_fail (env : DownloadEnv) (rid : String)
    (hcmd : env.getCmdOk = true) (hrid : env.cloudRequestId = some rid)
    (hA : phaseALoop (estimatedTimeout env.file_size) env.getPolls = .fail) :
    (download_file env).1 = .failure := by
  simp [download_file, hcmd, hrid, hA]

/-- Helper: a failed SHA phase fails the download. -/
theorem download_file_sha_fail (env : DownloadEnv) (rid : String)
    (hcmd : env.getCmdOk = true) (hrid : env.cloudRequestId = some rid)
    (hA : phaseALoop (estimatedTimeout env.file_size) env.getPolls = .done)
    (hS : (shaLoop rid 0 env.shaPolls).1 = .fail) :
    (download_file env).1 = .failure := by
  cases hx : shaLoop rid 0 env.shaPolls with
  | mk out acts =>
    rw [hx] at hS
    simp only at hS
    subst hS
    simp [download_file, hcmd, hrid, hA, hx]

/-- Helper: the get command is issued exactly once per download. -/
theorem download_file_issueGet_once (env : DownloadEnv) :
    (download_file env).2.count DLAction.issueGet = 1 := by
  rw [download_file]
  by_cases hcmd : env.getCmdOk
  · simp only [hcmd, not_true_eq_false, if_false]
    cases hrid : env.cloudRequestId with
    | none => simp
    | some rid =>
      cases houtA : phaseALoop (estimatedTimeout env.file_size) env.getPolls with
      | fail => simp
      | fuelOut => simp
      | done =>
        cases hsl : shaLoop rid 0 env.shaPolls with
        | mk out acts =>
          have hsg : DLAction.issueGet ∉ acts := by
            have := shaLoop_no_issueGet rid env.shaPolls 0
            rw [hsl] at this
            exact this
          cases out with
          | fail => simp [hsl, List.count_cons, List.count_eq_zero.mpr hsg]
          | fuelOut => simp [hsl, List.count_cons, List.count_eq_zero.mpr hsg]
          | got sha =>
            cases hcl : contentLoop (adjustLocalPath env.localPath) 0 env.contentPolls with
            | mk b acts2 =>
              have hcg : DLAction.issueGet ∉ acts2 := by
                have := contentLoop_no_issueGet (adjustLocalPath env.localPath) env.contentPolls 0
                rw [hcl] at this
                exact this
              cases b <;>
                simp [hsl, hcl, List.count_cons, List.count_append,
                  List.count_eq_zero.mpr hsg, List.count_eq_zero.mpr hcg]
  · simp [hcmd]

/-- Helper: every local write of a download targets the .7z-adjusted local
path. -/
theorem download_file_write_target (env : DownloadEnv) (s : String)
    (hw : DLAction.writeLocal s ∈ (download_file env).2) :
    s = adjustLocalPath env.localPath := by
  by_cases hcmd : env.getCmdOk
  · cases hrid : env.cloudRequestId with
    | none => rw [download_file] at hw; simp [hcmd, hrid] at hw
    | some rid =>
      cases houtA : phaseALoop (estimatedTimeout env.file_size) env.getPolls with
      | fail => rw [download_file] at hw; simp [hcmd, hrid, houtA] at hw
      | fuelOut => rw [download_file] at hw; simp [hcmd, hrid, houtA] at hw
      | done =>
        cases hsl : shaLoop rid 0 env.shaPolls with
        | mk out acts =>
          have hsw : DLAction.writeLocal s ∉ acts := by
            have := shaLoop_no_write rid env.shaPolls 0 s
            rw [hsl] at this
            exact this
          cases out with
          | fail =>
            rw [download_file] at hw
            simp [hcmd, hrid, houtA, hsl] at hw
            exact absurd hw hsw
          | fuelOut =>
            rw [download_file] at hw
            simp [hcmd, hrid, houtA, hsl] at hw
            exact absurd hw hsw
          | got sha =>
            cases hcl : contentLoop (adjustLocalPath env.localPath) 0 env.contentPolls with
            | mk b acts2 =>
              have hcw : DLAction.writeLocal s ∈ acts2 → s = adjustLocalPath env.localPath := by
                intro hmem
                have := contentLoop_write_target (adjustLocalPath env.localPath)
                  env.contentPolls 0 s
                rw [hcl] at this
                exact this hmem
              cases b <;>
              · rw [download_file] at hw
                simp [hcmd, hrid, houtA, hsl, hcl] at hw
                rcases hw with hw | hw
                · exact absurd hw hsw
                · exact hcw hw
  · rw [download_file] at hw
    simp [hcmd] at hw

/- ===================================================================
   Claim theorems C5, C6 and C7
   =================================================================== -/

/-- C5: for every pull download whose remote file size is known and
positive, the phase A status-polling deadline is max(600 seconds,
file_size divided by 30 KiB per second), and a polling trace that reaches
an iteration past that deadline with no completed result makes
download_file return failure. -/
theorem c5_download_deadline (n : ℤ) (env : DownloadEnv) (rid : String)
    (hn : 0 < n) (hsize : env.file_size = n)
    (hcmd : env.getCmdOk = true) (hrid : env.cloudRequestId = some rid)
    (hnc : ∀ o ∈ env.getPolls, ∀ r, o.res = some r → r.complete = false)
    (hex : ∃ o ∈ env.getPolls, o.t > max 600 ((n : ℚ) / (30 * 1024))) :
    estimatedTimeout n = max 600 ((n : ℚ) / (30 * 1024)) ∧
    (download_file env).1 = .failure := by
  have het : estimatedTimeout n = max 600 ((n : ℚ) / (30 * 1024)) := by
    rw [estimatedTimeout, if_pos hn, ratMax_eq_max, Rat.mkRat_eq_div]
    norm_num
  refine ⟨het, ?_⟩
  have hA : phaseALoop (estimatedTimeout env.file_size) env.getPolls = .fail := by
    rw [hsize, het]
    exact phaseALoop_timeout _ _ hnc hex
  exact download_file_phaseA_fail env rid hcmd hrid hA

/-- C5 witness: a 21504000 byte file gives the 700 second deadline
max(600, 21504000 / 30720), and a first poll at 701 seconds fails the
download. -/
theorem c5_witness :
    (0 : ℤ) < 21504000 ∧
    (estimatedTimeout 21504000 = max 600 ((21504000 : ℚ) / (30 * 1024)) ∧
      (download_file
        { localPath := "triage", file_size := 21504000, getCmdOk := true,
          cloudRequestId := some "R1",
          getPolls := [{ t := 701, res := none }],
          shaPolls := [], contentPolls := [] }).1 = .failure) := by
  refine ⟨by norm_num, ?_⟩
  refine c5_download_deadline 21504000
    { localPath := "triage", file_size := 21504000, getCmdOk := true,
      cloudRequestId := some "R1",
      getPolls := [{ t := 701, res := none }],
      shaPolls := [], contentPolls := [] }
    "R1" (by norm_num) rfl rfl rfl ?_ ?_
  · intro o ho r hr
    simp at ho
    rw [ho] at hr
    simp at hr
  · refine ⟨{ t := 701, res := none }, by simp, ?_⟩
    show (701 : ℚ) > _
    push_cast
    rw [show ((21504000 : ℚ) / (30 * 1024)) = 700 by norm_num]
    rw [max_eq_right (by norm_num : (600 : ℚ) ≤ 700)]
    norm_num

/-- C6: during the SHA-retrieval phase of a pull download, success requires a
file-list entry whose cloud_request_id matches the issued get command to be
observed within the 2000 second deadline; an iteration reached past the
deadline fails; a due pulse that fails aborts with failure; pulses are
emitted exactly when 300 seconds have passed since the last one (none when
every gap is smaller, one as soon as an iteration is due); the get command
is issued exactly once per download and never re-issued; and a failed SHA
phase makes download_file return failure. -/
theorem c6_sha_retrieval (rid : String)
    (obs1 : List ShaObs) (lp1 : ℤ) (sha : String)
    (o2 : ShaObs) (rest2 : List ShaObs) (lp2 : ℤ)
    (o3 : ShaObs) (rest3 : List ShaObs) (lp3 : ℤ)
    (obs4 : List ShaObs) (lp4 : ℤ)
    (o5 : ShaObs) (rest5 : List ShaObs) (lp5 : ℤ)
    (env : DownloadEnv)
    (h1 : (shaLoop rid lp1 obs1).1 = .got sha)
    (h2 : o2.t > 2000)
    (h3t : ¬ o3.t > 2000) (h3due : o3.t - lp3 ≥ 300) (h3p : o3.pulseOk = false)
    (h4 : shaGapsSmall lp4 obs4)
    (h5t : ¬ o5.t > 2000) (h5due : o5.t - lp5 ≥ 300)
    (hcmd : env.getCmdOk = true) (hrid : env.cloudRequestId = some rid)
    (hA : phaseALoop (estimatedTimeout env.file_size) env.getPolls = .done)
    (hS : (shaLoop rid 0 env.shaPolls).1 = .fail) :
    (∃ o ∈ obs1, o.t ≤ 2000 ∧ obsSha rid o = some sha) ∧
    (shaLoop rid lp2 (o2 :: rest2)).1 = .fail ∧
    (shaLoop rid lp3 (o3 :: rest3)).1 = .fail ∧
    (shaLoop rid lp4 obs4).2.count DLAction.pulse = 0 ∧
    DLAction.pulse ∈ (shaLoop rid lp5 (o5 :: rest5)).2 ∧
    (download_file env).2.count DLAction.issueGet = 1 ∧
    (download_file env).1 = .failure :=
  ⟨shaLoop_got_mem rid obs1 lp1 sha h1,
   shaLoop_timeout_step rid lp2 o2 rest2 h2,
   shaLoop_pulse_fail_step rid lp3 o3 rest3 h3t h3due h3p,
   shaLoop_no_pulse_when_not_due rid obs4 lp4 h4,
   shaLoop_pulse_due_emitted rid lp5 o5 rest5 h5t h5due,
   download_file_issueGet_once env,
   download_file_sha_fail env rid hcmd hrid hA hS⟩

/-- C6 witness environments: a trace whose matching entry arrives at 10
seconds, and a download whose SHA poll is first reached at 2001 seconds. -/
def c6obsGood : List ShaObs := [⟨10, true, some [⟨"R1", some "S1"⟩]⟩]

/-- C6 witness download environment: SHA never arrives before the deadline. -/
def c6envLate : DownloadEnv :=
  ⟨"out", 0, true, some "R1", [⟨0, some ⟨true, "", "", 0⟩⟩], [⟨2001, true, none⟩], []⟩

/-- C6 witness: the theorem applied at concrete traces; the download whose
SHA never arrives before an iteration at 2001 seconds returns failure. -/
theorem c6_witness :
    (∃ o ∈ c6obsGood, o.t ≤ 2000 ∧ obsSha "R1" o = some "S1") ∧
    (shaLoop "R1" 0 [({ t := 2001, pulseOk := true, files := none } : ShaObs)]).1 =
      .fail ∧
    (shaLoop "R1" 0 [({ t := 400, pulseOk := false, files := none } : ShaObs)]).1 =
      .fail ∧
    (shaLoop "R1" 0 [({ t := 10, pulseOk := true, files := none } : ShaObs)]).2.count
      DLAction.pulse = 0 ∧
    DLAction.pulse ∈
      (shaLoop "R1" 0 [({ t := 400, pulseOk := true, files := none } : ShaObs)]).2 ∧
    (download_file c6envLate).2.count DLAction.issueGet = 1 ∧
    (download_file c6envLate).1 = .failure :=
  c6_sha_retrieval "R1"
    c6obsGood 0 "S1"
    { t := 2001, pulseOk := true, files := none } [] 0
    { t := 400, pulseOk := false, files := none } [] 0
    [{ t := 10, pulseOk := true, files := none }] 0
    { t := 400, pulseOk := true, files := none } [] 0
    c6envLate
    (by decide) (by decide) (by decide) (by decide) rfl
    (by exact ⟨by decide, trivial⟩) (by decide) (by decide)
    rfl rfl (by decide) (by decide)

/-- C7: the local path of a pull download is adjusted to end in .7z
whatever its original extension, every file download_file writes targets
that adjusted path, and the local filenames derived by the UAC and KAPE
download paths for the evacuated archive end in .7z as well. -/
theorem c7_extension_normalization (p f g : String) (env : DownloadEnv) (s : String)
    (hw : DLAction.writeLocal s ∈ (download_file env).2) :
    ".7z".data <:+ (adjustLocalPath p).data ∧
    ".7z".data <:+ s.data ∧
    ".7z".data <:+ (uacLocalFilename f).data ∧
    ".7z".data <:+ (kapeLocalFilename g).data := by
  refine ⟨adjustLocalPathChars_endsWith p.data, ?_,
    uacLocalFilename_endsWith f, kapeLocalFilename_endsWith g⟩
  rw [download_file_write_target env s hw]
  exact adjustLocalPathChars_endsWith env.localPath.data

/-- C7 witness: a download of a .tar.gz archive into local path
uac-host.tar.gz writes uac-host.tar.7z, and the derived UAC and KAPE local
names end in .7z. -/
theorem c7_witness :
    ".7z".data <:+ (adjustLocalPath "uac-host.tar.gz").data ∧
    ".7z".data <:+ ("uac-host.tar.7z" : String).data ∧
    ".7z".data <:+ (uacLocalFilename "uac-host-linux-20250607080910").data ∧
    ".7z".data <:+ (kapeLocalFilename "2025-06-07T080910_host-triage").data :=
  c7_extension_normalization "uac-host.tar.gz" "uac-host-linux-20250607080910"
    "2025-06-07T080910_host-triage"
    ⟨"uac-host.tar.gz", 0, true, some "R1", [⟨0, some ⟨true, "", "", 0⟩⟩],
      [⟨10, true, some [⟨"R1", some "S1"⟩]⟩], [⟨0, true, some 4, 4⟩]⟩
    "uac-host.tar.7z" (by decide)

/- ===================================================================
   UAC monitoring: archive wait after exit-code file appearance
   (src/fnerd_falconpy/collectors/uac_collector.py,
    UACCollector.monitor_uac_execution, lines 675-731)
   =================================================================== -/

/-- A word character in the manner of the regex class backslash-w
(modelled over ASCII letters, digits and underscore). -/
def isWordChar (c : Char) : Bool := c.isAlphanum || c == '_'

/-- The archive-name pattern of uac_collector.py line 700,
uac-(hostname)-(word chars)-(14 digits).tar.gz, checked against one
filename (the source applies re.search to the raw ls output; the model
reads the evidence directory as a list of filenames and anchors the
pattern on each). -/
def matchesUacArchive (hostname file : String) : Bool :=
  let pre := ("uac-" ++ hostname ++ "-").data
  let f := file.data
  let rest := f.drop pre.length
  (f.take pre.length == pre) &&
  decide (rest.length ≥ 22) &&
  (rest.drop (rest.length - 7) == ".tar.gz".data) &&
  (let core := rest.take (rest.length - 7)
   let ds := core.drop (core.length - 14)
   let osPart := core.take (core.length - 15)
   ds.all Char.isDigit &&
   ((core.drop (core.length - 15)).take 1 == ['-']) &&
   !osPart.isEmpty && osPart.all isWordChar)

/-- The first filename of the evidence listing matching the archive
pattern (the re.search result of line 701). -/
def findArchive (hostname : String) (files : List String) : Option String :=
  files.find? (matchesUacArchive hostname)

/-- The base-name computation of uac_collector.py lines 630 and 704:
collection_file.replace with the .tar.gz pattern removed. -/
def stripTarGz (f : String) : String :=
  ⟨pyReplace ".tar.gz".data [] f.data⟩

/-- One iteration of the archive-creation wait loop (uac_collector.py
lines 693-710): t is time.time() - archive_wait_start at the loop check,
modelled at whole-second granularity; files is the evidence directory
listing, with none covering a falsy ls_result (line 698), which just polls
again. -/
structure ArchObs where
  t : ℤ
  files : Option (List String)
deriving DecidableEq, Repr

inductive ArchOutcome
  | found (base : String)
  | timedOut
  | fuelOut
deriving DecidableEq, Repr

/-- Embedding of the archive-creation wait loop (uac_collector.py lines
690-714): while less than archive_timeout = 900 seconds have elapsed, the
evidence directory is listed and the first filename matching the archive
pattern ends the wait with its base name (the name with .tar.gz removed,
line 704); once the window is over the loop exits and the monitor returns
failure (line 714). -/
def archiveWait (hostname : String) : List ArchObs → ArchOutcome
  | [] => .fuelOut
  | o :: rest =>
    if o.t < 900 then
      match o.files with
      | some fs =>
        match findArchive hostname fs with
        | some f => .found (stripTarGz f)
        | none => archiveWait hostname rest
      | none => archiveWait hostname rest
    else .timedOut

inductive UacArchiveResult
  | completed (base : String)
  | failed
  | undetermined
deriving DecidableEq, Repr

/-- Embedding of the exit-code branch of monitor_uac_execution
(uac_collector.py lines 682-731): when the uac_exit_code file holds 0 the
monitor enters the archive wait, a found archive returning its base name
and a timed-out wait returning failure; a nonzero exit code returns
failure directly (line 731). -/
def uacExitCodeBranch (hostname : String) (exitCode : ℤ)
    (obs : List ArchObs) : UacArchiveResult :=
  if exitCode = 0 then
    match archiveWait hostname obs with
    | .found b => .completed b
    | .timedOut => .failed
    | .fuelOut => .undetermined
  else .failed

/-- Whether one archive-wait observation shows no matching archive. -/
def archiveObsNoMatch (hostname : String) (o : ArchObs) : Bool :=
  match o.files with
  | none => true
  | some fs => (findArchive hostname fs).isNone

/-- Helper: a found archive was observed inside the 900 second window. -/
theorem archiveWait_found_mem (hostname : String) :
    ∀ (obs : List ArchObs) (b : String),
      archiveWait hostname obs = .found b →
      ∃ o ∈ obs, o.t < 900 ∧ ∃ fs f, o.files = some fs ∧
        findArchive hostname fs = some f ∧ b = stripTarGz f := by
  intro obs
  induction obs with
  | nil => intro b h; simp [archiveWait] at h
  | cons o rest ih =>
    intro b h
    by_cases ht : o.t < 900
    · match hfs : o.files with
      | some fs =>
        match hfa : findArchive hostname fs with
        | some f =>
          rw [archiveWait] at h
          simp only [if_pos ht, hfs, hfa, ArchOutcome.found.injEq] at h
          exact ⟨o, List.mem_cons_self o rest, ht, fs, f, hfs, hfa, h.symm⟩
        | none =>
          rw [archiveWait] at h
          simp only [if_pos ht, hfs, hfa] at h
          obtain ⟨w, hw, hrest⟩ := ih b h
          exact ⟨w, List.mem_cons_of_mem o hw, hrest⟩
      | none =>
        rw [archiveWait] at h
        simp only [if_pos ht, hfs] at h
        obtain ⟨w, hw, hrest⟩ := ih b h
        exact ⟨w, List.mem_cons_of_mem o hw, hrest⟩
    · rw [archiveWait] at h
      rw [if_neg ht] at h
      simp at h

/-- Helper: with no matching archive ever listed, an observation at or
past the 900 second window makes the wait time out. -/
theorem archiveWait_timeout (hostname : String) :
    ∀ obs : List ArchObs,
      (∀ o ∈ obs, archiveObsNoMatch hostname o = true) →
      (∃ o ∈ obs, ¬ o.t < 900) →
      archiveWait hostname obs = .timedOut := by
  intro obs
  induction obs with
  | nil => intro _ h; simp at h
  | cons o rest ih =>
    intro hnm hex
    rw [archiveWait]
    by_cases ht : o.t < 900
    · rw [if_pos ht]
      have hrest : ∃ o ∈ rest, ¬ o.t < 900 := by
        obtain ⟨w, hw, hwt⟩ := hex
        rcases List.mem_cons.mp hw with hh | hh
        · exact absurd (hh ▸ ht) hwt
        · exact ⟨w, hh, hwt⟩
      have ihr := ih (fun x hx => hnm x (List.mem_cons_of_mem o hx)) hrest
      have hno := hnm o (List.mem_cons_self o rest)
      match hfs : o.files with
      | some fs =>
        rw [archiveObsNoMatch] at hno
        simp only [hfs] at hno
        have hfa : findArchive hostname fs = none := Option.isNone_iff_eq_none.mp hno
        simp only [hfs, hfa]
        exact ihr
      | none =>
        simp only [hfs]
        exact ihr
    · rw [if_neg ht]

/-- C9: when the UAC exit-code file appears with exit code 0 and no
matching archive is present, the monitor polls the evidence directory for
at most 900 seconds; with no archive ever appearing and the window
elapsed it returns failure; an archive found inside the window yields its
base name with the .tar.gz extension removed (literally so when the
pattern occurs nowhere else in the name); a nonzero exit code fails
directly. -/
theorem c9_uac_archive_window (hostname : String)
    (obs1 : List ArchObs) (b : String)
    (obs2 : List ArchObs)
    (ec : ℤ) (obs3 : List ArchObs)
    (s : List Char)
    (h1 : archiveWait hostname obs1 = .found b)
    (h2m : ∀ o ∈ obs2, archiveObsNoMatch hostname o = true)
    (h2t : ∃ o ∈ obs2, ¬ o.t < 900)
    (hec : ec ≠ 0)
    (hs : ¬ (".tar.gz".data <:+: s)) :
    (∃ o ∈ obs1, o.t < 900 ∧ ∃ fs f, o.files = some fs ∧
      findArchive hostname fs = some f ∧ b = stripTarGz f) ∧
    uacExitCodeBranch hostname 0 obs1 = .completed b ∧
    uacExitCodeBranch hostname 0 obs2 = .failed ∧
    uacExitCodeBranch hostname ec obs3 = .failed ∧
    stripTarGz ⟨s ++ ".tar.gz".data⟩ = ⟨s⟩ := by
  refine ⟨archiveWait_found_mem hostname obs1 b h1, ?_, ?_, ?_, ?_⟩
  · simp [uacExitCodeBranch, h1]
  · simp [uacExitCodeBranch, archiveWait_timeout hostname obs2 h2m h2t]
  · simp [uacExitCodeBranch, hec]
  · show (⟨pyReplace ".tar.gz".data [] (s ++ ".tar.gz".data)⟩ : String) = ⟨s⟩
    rw [pyReplace_of_no_occurrence ".tar.gz".data [] (by decide) (by decide) s hs]
    rw [List.append_nil]

/-- C9 witness: an archive listed at 10 seconds yields its base name; a
window that elapses at 900 seconds with nothing listed fails; exit code 1
fails directly. -/
theorem c9_witness :
    (∃ o ∈ [(⟨10, some ["uac-web01-linux-20250607080910.tar.gz"]⟩ : ArchObs)],
      o.t < 900 ∧ ∃ fs f, o.files = some fs ∧
        findArchive "web01" fs = some f ∧
        stripTarGz "uac-web01-linux-20250607080910.tar.gz" = stripTarGz f) ∧
    uacExitCodeBranch "web01" 0
      [(⟨10, some ["uac-web01-linux-20250607080910.tar.gz"]⟩ : ArchObs)] =
      .completed (stripTarGz "uac-web01-linux-20250607080910.tar.gz") ∧
    uacExitCodeBranch "web01" 0 [(⟨900, none⟩ : ArchObs)] = .failed ∧
    uacExitCodeBranch "web01" 1 [] = .failed ∧
    stripTarGz ⟨"x".data ++ ".tar.gz".data⟩ = ⟨"x".data⟩ :=
  c9_uac_archive_window "web01"
    [⟨10, some ["uac-web01-linux-20250607080910.tar.gz"]⟩]
    (stripTarGz "uac-web01-linux-20250607080910.tar.gz")
    [⟨900, none⟩] 1 [] "x".data
    rfl (by decide) ⟨⟨900, none⟩, by simp, by decide⟩
    (by decide) (by decide)

/- ===================================================================
   Pre-execution cleanup
   (src/fnerd_falconpy/utils/pre_execution_cleanup.py,
    PreExecutionCleanupManager.ensure_clean_environment, lines 73-145)
   and the collection runs that it gates
   (collectors.py ForensicCollector.run_kape_collection, lines 1432-1708;
    uac_collector.py UACCollector.run_uac_collection, lines 99-475)
   =================================================================== -/

/-- The two platform families the cleanup engine distinguishes (mac and
linux share patterns, paths and commands, so they are collapsed). -/
inductive Plat
  | windows
  | unix
deriving DecidableEq, Repr

/-- The observations one ensure_clean_environment call makes, in source
order: procsFound is the matching process list of the initial sweep after
the self-exemption filter (step 1, line 91); terminateOk is the
_terminate_existing_processes result (step 2, line 98; the return value of
the step 3 wait on line 104 is not consulted by the source); workspaceExisted
and cleanOk are the step 4 observations (lines 112-116); createOk is the
step 5 result (line 127; the workspace path is always configured for the
three platforms, so the surrounding guard is always taken); verifyProcs,
verifyExists and verifyCount are what the final verification sweep observes
(lines 590-606), verifyCount being the parsed item count of the emptiness
check with none for a non-digit result (line 635). -/
structure CleanEnv where
  procsFound : List String
  terminateOk : Bool
  workspaceExisted : Bool
  cleanOk : Bool
  createOk : Bool
  verifyProcs : List String
  verifyExists : Bool
  verifyCount : Option ℕ
deriving DecidableEq, Repr

/-- The emptiness reading of _workspace_is_empty (pre_execution_cleanup.py
lines 613-648): on Windows the Get-ChildItem count must be 0; on Unix the
ls -la line count must be at most 3; a non-digit reading is not empty. -/
def workspaceEmptyObs (p : Plat) : Option ℕ → Bool
  | none => false
  | some k =>
    match p with
    | .windows => k == 0
    | .unix => decide (k ≤ 3)

/-- Embedding of _verify_clean_environment (pre_execution_cleanup.py lines
577-611): no remaining matching processes, the workspace exists, and it is
empty. -/
def verifyCleanEnvironment (e : CleanEnv) (p : Plat) : Bool :=
  e.verifyProcs.isEmpty && e.verifyExists && workspaceEmptyObs p e.verifyCount

/-- Embedding of ensure_clean_environment (pre_execution_cleanup.py lines
73-145): a failed termination of found processes aborts (line 101); a
failed removal of an existing workspace aborts (line 119); a failed fresh
workspace creation aborts (line 130); otherwise the result is exactly the
final verification. -/
def ensure_clean_environment (e : CleanEnv) (p : Plat) : Bool :=
  if !e.procsFound.isEmpty && !e.terminateOk then false
  else if e.workspaceExisted && !e.cleanOk then false
  else if !e.createOk then false
  else verifyCleanEnvironment e p

/-- Session lifecycle events of one collection operation; sessions opened
by the operation are numbered in order of their start_session call. -/
inductive SessEvent
  | opened (i : ℕ)
  | closed (i : ℕ)
deriving DecidableEq, Repr

/-- The outcome of a collection-run skeleton: the returned value, whether
any deploy command was issued, and the session events. -/
structure RunModelOut where
  result : Option String
  deployed : Bool
  events : List SessEvent
deriving DecidableEq, Repr

/-- The observations of one run_kape_collection call (collectors.py lines
1432-1708): prepOk collapses the packaging and cloud-upload gates before
any session exists (lines 1460-1552, each returning None on failure);
sessionOk is start_session (line 1555); clean is the cleanup observation
(line 1565); rest is the collapsed outcome of deploy, monitoring and
archive matching (lines 1570-1697). -/
structure KapeRunEnv where
  prepOk : Bool
  sessionOk : Bool
  clean : CleanEnv
  rest : Option String
deriving DecidableEq, Repr

/-- Embedding of the control skeleton of run_kape_collection: a failed
pre-execution cleanup returns None before any deploy command (lines
1565-1568); the finally clause closes the session on every exit path
(lines 1702-1708); deploy commands (the cd on line 1576 onward) are issued
only after the cleanup gate passed. -/
def run_kape_collection (env : KapeRunEnv) : RunModelOut :=
  if !env.prepOk then ⟨none, false, []⟩
  else if !env.sessionOk then ⟨none, false, []⟩
  else if !ensure_clean_environment env.clean .windows then
    ⟨none, false, [.opened 0, .closed 0]⟩
  else ⟨env.rest, true, [.opened 0, .closed 0]⟩

/-- The observations of one run_uac_collection call (uac_collector.py
lines 99-475): prepOk collapses the platform validation and the uac.zip
upload gates before any session exists (lines 113-190); sessionOk is
start_session (line 193); clean is the cleanup observation (line 203);
rest is the collapsed outcome of deploy and monitoring (lines 208-462). -/
structure UacRunEnv where
  prepOk : Bool
  sessionOk : Bool
  clean : CleanEnv
  rest : Option String
deriving DecidableEq, Repr

/-- Embedding of the control skeleton of run_uac_collection: a failed
pre-execution cleanup returns None before any deploy command (lines
203-206); the finally clause closes the session on every exit path (lines
467-475); deploy commands (the cd on line 219 onward) are issued only
after the cleanup gate passed. -/
def run_uac_collection (env : UacRunEnv) : RunModelOut :=
  if !env.prepOk then ⟨none, false, []⟩
  else if !env.sessionOk then ⟨none, false, []⟩
  else if !ensure_clean_environment env.clean .unix then
    ⟨none, false, [.opened 0, .closed 0]⟩
  else ⟨env.rest, true, [.opened 0, .closed 0]⟩

/-- C3: a successful ensure_clean_environment means the final verification
observed no collector-pattern processes, an existing workspace and an
empty one; both collection runs deploy only when that gate passed, and
when it fails they return failure without deploying. -/
theorem c3_clean_before_run (e : CleanEnv) (p : Plat)
    (envK envK2 : KapeRunEnv) (envU envU2 : UacRunEnv)
    (h1 : ensure_clean_environment e p = true)
    (h2 : (run_kape_collection envK).deployed = true)
    (h3 : ensure_clean_environment envK2.clean .windows = false)
    (h4 : (run_uac_collection envU).deployed = true)
    (h5 : ensure_clean_environment envU2.clean .unix = false) :
    (e.verifyProcs = [] ∧ e.verifyExists = true ∧
      workspaceEmptyObs p e.verifyCount = true) ∧
    ensure_clean_environment envK.clean .windows = true ∧
    ((run_kape_collection envK2).result = none ∧
      (run_kape_collection envK2).deployed = false) ∧
    ensure_clean_environment envU.clean .unix = true ∧
    ((run_uac_collection envU2).result = none ∧
      (run_uac_collection envU2).deployed = false) := by
  refine ⟨?_, ?_, ?_, ?_, ?_⟩
  · rw [ensure_clean_environment] at h1
    split at h1
    · exact absurd h1 (by simp)
    · split at h1
      · exact absurd h1 (by simp)
      · split at h1
        · exact absurd h1 (by simp)
        · rw [verifyCleanEnvironment] at h1
          simp only [Bool.and_eq_true, List.isEmpty_iff] at h1
          exact ⟨h1.1.1, h1.1.2, h1.2⟩
  · rw [run_kape_collection] at h2
    by_cases hp : envK.prepOk <;> simp [hp] at h2
    by_cases hs : envK.sessionOk <;> simp [hs] at h2
    by_cases hc : ensure_clean_environment envK.clean .windows
    · exact hc
    · simp [hc] at h2
  · rw [run_kape_collection]
    by_cases hp : envK2.prepOk <;> simp [hp]
    by_cases hs : envK2.sessionOk <;> simp [hs]
    simp [h3]
  · rw [run_uac_collection] at h4
    by_cases hp : envU.prepOk <;> simp [hp] at h4
    by_cases hs : envU.sessionOk <;> simp [hs] at h4
    by_cases hc : ensure_clean_environment envU.clean .unix
    · exact hc
    · simp [hc] at h4
  · rw [run_uac_collection]
    by_cases hp : envU2.prepOk <;> simp [hp]
    by_cases hs : envU2.sessionOk <;> simp [hs]
    simp [h5]

/-- C3 witness environments: a fully clean observation and a dirty one
whose final verification finds a leftover process. -/
def c3cleanGood : CleanEnv := ⟨[], true, false, true, true, [], true, some 0⟩

/-- C3 witness dirty-cleanup observation. -/
def c3cleanBad : CleanEnv := ⟨[], true, false, true, true, ["kape.exe"], true, some 0⟩

/-- C3 witness: the theorem applied at a clean run on both platforms and a
dirty run that aborts without deploying. -/
theorem c3_witness :
    (c3cleanGood.verifyProcs = [] ∧ c3cleanGood.verifyExists = true ∧
      workspaceEmptyObs .windows c3cleanGood.verifyCount = true) ∧
    ensure_clean_environment c3cleanGood .windows = true ∧
    ((run_kape_collection ⟨true, true, c3cleanBad, some "x"⟩).result = none ∧
      (run_kape_collection ⟨true, true, c3cleanBad, some "x"⟩).deployed = false) ∧
    ensure_clean_environment c3cleanGood .unix = true ∧
    ((run_uac_collection ⟨true, true, c3cleanBad, some "x"⟩).result = none ∧
      (run_uac_collection ⟨true, true, c3cleanBad, some "x"⟩).deployed = false) :=
  c3_clean_before_run c3cleanGood .windows
    ⟨true, true, c3cleanGood, some "x"⟩ ⟨true, true, c3cleanBad, some "x"⟩
    ⟨true, true, c3cleanGood, some "x"⟩ ⟨true, true, c3cleanBad, some "x"⟩
    (by decide) (by decide) (by decide) (by decide) (by decide)

/- ===================================================================
   Result evacuation by remote PUT with HEAD-authoritative verification
   (collectors.py ForensicCollector.upload_kape_results, lines 1875-2117;
    uac_collector.py UACCollector.upload_uac_results, lines 776-1194)
   =================================================================== -/

/-- One iteration of the KAPE upload monitoring loop (collectors.py lines
2021-2060): t is time.time() - start_time, modelled at whole-second
granularity; psCount is the parsed count of remaining hidden
Invoke-WebRequest PUT processes when the WMI check returned a digit
(lines 2040-2041), none otherwise.  A failed pulse in this loop only logs
a warning (line 2031). -/
structure KMonObs where
  t : ℤ
  psCount : Option ℕ
deriving DecidableEq, Repr

/-- Embedding of the wait-budget computation of upload_kape_results
(collectors.py lines 1996-2008): the size-derived wait
int((file_size / 1MB) * 1.5) clamped to at least 300 and at most 1800
seconds. -/
def kapeUploadWait (file_size : ℕ) : ℕ :=
  min 1800 (max 300 (file_size * 3 / 2097152))

/-- Embedding of the KAPE upload monitoring loop (collectors.py lines
2021-2060): a zero remaining-process count breaks out, and so does an
elapsed time past the wait budget; either way the loop only sets
upload_complete, it never returns from the function.  An exhausted
observation list is an undetermined run. -/
def kapeUploadMonitor (budget : ℤ) : List KMonObs → Option Unit
  | [] => none
  | o :: rest =>
    match o.psCount with
    | some 0 => some ()
    | _ =>
      if o.t > budget then some ()
      else kapeUploadMonitor budget rest

/-- The observations of one upload_kape_results call (collectors.py lines
1875-2117): sessionOk is start_session (line 1889); lsOk and archiveFound
are the results-directory listing and the triage-pattern match (lines
1896-1913); urlOk is the presigned-URL generation (line 1928, with the
raising path folded into the except clause that returns False); zipStable
is the stability wait (line 1955); file_size is the parsed archive size or
the 5 GiB default (lines 1969-1975); monitor drives the monitoring loop;
headFound is the HEAD observation of the final S3 verification (line
2065), some n meaning the object exists with ContentLength n. -/
structure KapeUpEnv where
  sessionOk : Bool
  lsOk : Bool
  archiveFound : Bool
  urlOk : Bool
  zipStable : Bool
  file_size : ℕ
  monitor : List KMonObs
  headFound : Option ℕ
deriving DecidableEq, Repr

/-- Embedding of upload_kape_results (collectors.py lines 1875-2117): the
early gates return False; once the monitoring loop breaks out, the
returned boolean is exactly the final _verify_s3_upload_success result,
which is verify_s3_upload with the expected size (lines 2062-2072, 2395);
the finally clause closes the session opened by the call on every exit
path (lines 2077-2117). -/
def upload_kape_results (env : KapeUpEnv) : Option Bool × List SessEvent :=
  if !env.sessionOk then (some false, [])
  else if !env.lsOk then (some false, [.opened 0, .closed 0])
  else if !env.archiveFound then (some false, [.opened 0, .closed 0])
  else if !env.urlOk then (some false, [.opened 0, .closed 0])
  else if !env.zipStable then (some false, [.opened 0, .closed 0])
  else
    match kapeUploadMonitor (kapeUploadWait env.file_size) env.monitor with
    | none => (none, [.opened 0])
    | some () =>
      (some (verify_s3_upload env.headFound (some env.file_size)),
       [.opened 0, .closed 0])

/-- Whether a KAPE upload reaches its final S3 verification: all early
gates passed and the monitoring loop broke out. -/
def kapeReachedVerify (env : KapeUpEnv) : Bool :=
  env.sessionOk && env.lsOk && env.archiveFound && env.urlOk && env.zipStable &&
  (kapeUploadMonitor (kapeUploadWait env.file_size) env.monitor).isSome

/-- Embedding of the UAC _verify_s3_upload_success (uac_collector.py lines
1196-1230): verify_s3_upload without a size check, and on failure a
get_s3_object_info fallback whose mere success also counts as verified
(line 1223); head and head2 are the two HEAD observations. -/
def uacVerifyS3 (head head2 : Option ℕ) : Bool :=
  if verify_s3_upload head none then true
  else
    match head2 with
    | some _ => true
    | none => false

/-- One iteration of the UAC upload monitoring loop, abstracted to the
three control outcomes of its branch structure (uac_collector.py lines
962-1147): sessLost is a progress check returning None (line 982), which
enters the session-recreation path; breakOut covers every break of the
loop, namely 100 percent progress (line 1038), an exit-code file with any
value (lines 1060, 1071), a dead upload process (lines 1103, 1114, 1127)
and the monitoring timeout (line 1140), all of which fall through to the
final S3 verification and none of which returns from the function;
keepGoing is an iteration that observes none of these. -/
inductive UObs
  | sessLost
  | breakOut
  | keepGoing
deriving DecidableEq, Repr

/-- Embedding of the session-recreation monitoring loop of
upload_uac_results (uac_collector.py lines 962-1147).  State: attempts is
session_recreation_attempts, cur the index of the session currently held,
created the session_created flag, nextId the index the next opened session
would get.  On a lost session with attempts below 3, the current session
is closed (line 993) and a new one started (line 998); a successful start
continues the loop with the new session and created set, a failed start
breaks out with the session variable still naming the already-closed
session and created unchanged (lines 1006-1008); with attempts exhausted
the loop breaks out directly (line 1012).  The result carries the session
index and created flag at loop exit, none modelling an exhausted
observation list. -/
def uacUpLoop (restarts : List Bool) :
    ℕ → ℕ → Bool → ℕ → List UObs → Option (ℕ × Bool) × List SessEvent
  | _, cur, created, _, [] => (none, [])
  | attempts, cur, created, nextId, o :: rest =>
    match o with
    | .breakOut => (some (cur, created), [])
    | .keepGoing => uacUpLoop restarts attempts cur created nextId rest
    | .sessLost =>
      if attempts < 3 then
        if restarts.getD attempts false then
          let r := uacUpLoop restarts (attempts + 1) nextId true (nextId + 1) rest
          (r.1, .closed cur :: .opened nextId :: r.2)
        else (some (cur, created), [.closed cur])
      else (some (cur, created), [])

/-- The observations of one upload_uac_results call (uac_collector.py
lines 776-1194): existing and testOk describe the optional reused session
and its validation echo (lines 798-807); startOk is the start_session
result whenever the call opens its own initial session (lines 810, 817,
823); urlOk is the presigned-URL generation (line 864); uploadStartOk is
the background curl launch (line 950); monitor drives the monitoring
loop and restarts the recreation attempts; headFound and headFound2 are
the two HEAD observations of the final verification (lines 1169, 1220). -/
structure UacUpEnv where
  existing : Bool
  testOk : Bool
  startOk : Bool
  urlOk : Bool
  uploadStartOk : Bool
  monitor : List UObs
  restarts : List Bool
  headFound : Option ℕ
  headFound2 : Option ℕ
deriving DecidableEq, Repr

/-- Embedding of upload_uac_results (uac_collector.py lines 776-1194).
Session acquisition: a valid existing session is reused (modelled as
index 0 with created false); otherwise the call opens its own session
(index 1).  Early gate failures return False; once the monitoring loop
breaks out, the returned boolean is exactly the final
_verify_s3_upload_success result (lines 1167-1182); the finally clause
closes the held session only when session_created is set (lines
1187-1194). -/
def upload_uac_results (env : UacUpEnv) : Option Bool × List SessEvent :=
  if env.existing && !env.testOk && !env.startOk then (some false, [])
  else if !env.existing && !env.startOk then (some false, [])
  else
    let cur0 : ℕ := if env.existing && env.testOk then 0 else 1
    let created0 : Bool := !(env.existing && env.testOk)
    let ev0 : List SessEvent := if created0 then [.opened 1] else []
    if !env.urlOk then
      (some false, ev0 ++ (if created0 then [.closed cur0] else []))
    else if !env.uploadStartOk then
      (some false, ev0 ++ (if created0 then [.closed cur0] else []))
    else
      let r := uacUpLoop env.restarts 0 cur0 created0 2 env.monitor
      match r.1 with
      | none => (none, ev0 ++ r.2)
      | some (curF, createdF) =>
        (some (uacVerifyS3 env.headFound env.headFound2),
         ev0 ++ r.2 ++ (if createdF then [.closed curF] else []))

/-- Whether a UAC upload reaches its final S3 verification: a session was
acquired, the early gates passed, and the monitoring loop broke out. -/
def uacReachedVerify (env : UacUpEnv) : Bool :=
  (if env.existing then env.testOk || env.startOk else env.startOk) &&
  env.urlOk && env.uploadStartOk &&
  (uacUpLoop env.restarts 0 (if env.existing && env.testOk then 0 else 1)
    (!(env.existing && env.testOk)) 2 env.monitor).1.isSome

/-- Helper: the boolean a KAPE upload returns is exactly the verdict of
the final HEAD verification, reached or not. -/
theorem upload_kape_results_ret (env : KapeUpEnv) (b : Bool)
    (h : (upload_kape_results env).1 = some b) :
    (b = true ↔ (kapeReachedVerify env = true ∧
      verify_s3_upload env.headFound (some env.file_size) = true)) := by
  cases h1 : env.sessionOk with
  | false =>
    rw [upload_kape_results] at h
    simp [h1] at h
    simp [kapeReachedVerify, h1, h]
  | true =>
  cases h2 : env.lsOk with
  | false =>
    rw [upload_kape_results] at h
    simp [h1, h2] at h
    simp [kapeReachedVerify, h1, h2, h]
  | true =>
  cases h3 : env.archiveFound with
  | false =>
    rw [upload_kape_results] at h
    simp [h1, h2, h3] at h
    simp [kapeReachedVerify, h1, h2, h3, h]
  | true =>
  cases h4 : env.urlOk with
  | false =>
    rw [upload_kape_results] at h
    simp [h1, h2, h3, h4] at h
    simp [kapeReachedVerify, h1, h2, h3, h4, h]
  | true =>
  cases h5 : env.zipStable with
  | false =>
    rw [upload_kape_results] at h
    simp [h1, h2, h3, h4, h5] at h
    simp [kapeReachedVerify, h1, h2, h3, h4, h5, h]
  | true =>
  cases hm : kapeUploadMonitor (kapeUploadWait env.file_size) env.monitor with
  | none =>
    rw [upload_kape_results] at h
    simp [h1, h2, h3, h4, h5, hm] at h
  | some u =>
    rw [upload_kape_results] at h
    simp [h1, h2, h3, h4, h5, hm] at h
    simp [kapeReachedVerify, h1, h2, h3, h4, h5, hm, h]

/-- Helper: the boolean a UAC upload returns is exactly the verdict of
the final HEAD verification, reached or not. -/
theorem upload_uac_results_ret (env : UacUpEnv) (b : Bool)
    (h : (upload_uac_results env).1 = some b) :
    (b = true ↔ (uacReachedVerify env = true ∧
      uacVerifyS3 env.headFound env.headFound2 = true)) := by
  cases he : env.existing with
  | true =>
    cases ht : env.testOk with
    | true =>
      cases h4 : env.urlOk with
      | false =>
        rw [upload_uac_results] at h
        simp [he, ht, h4] at h
        simp [uacReachedVerify, he, ht, h4, h]
      | true =>
      cases h5 : env.uploadStartOk with
      | false =>
        rw [upload_uac_results] at h
        simp [he, ht, h4, h5] at h
        simp [uacReachedVerify, he, ht, h4, h5, h]
      | true =>
      cases hr : (uacUpLoop env.restarts 0 0 false 2 env.monitor).1 with
      | none =>
        rw [upload_uac_results] at h
        simp [he, ht, h4, h5, hr] at h
      | some p =>
        rw [upload_uac_results] at h
        simp [he, ht, h4, h5, hr] at h
        simp [uacReachedVerify, he, ht, h4, h5, hr, h]
    | false =>
      cases hs : env.startOk with
      | false =>
        rw [upload_uac_results] at h
        simp [he, ht, hs] at h
        simp [uacReachedVerify, he, ht, hs, h]
      | true =>
      cases h4 : env.urlOk with
      | false =>
        rw [upload_uac_results] at h
        simp [he, ht, hs, h4] at h
        simp [uacReachedVerify, he, ht, hs, h4, h]
      | true =>
      cases h5 : env.uploadStartOk with
      | false =>
        rw [upload_uac_results] at h
        simp [he, ht, hs, h4, h5] at h
        simp [uacReachedVerify, he, ht, hs, h4, h5, h]
      | true =>
      cases hr : (uacUpLoop env.restarts 0 1 true 2 env.monitor).1 with
      | none =>
        rw [upload_uac_results] at h
        simp [he, ht, hs, h4, h5, hr] at h
      | some p =>
        rw [upload_uac_results] at h
        simp [he, ht, hs, h4, h5, hr] at h
        simp [uacReachedVerify, he, ht, hs, h4, h5, hr, h]
  | false =>
    cases hs : env.startOk with
    | false =>
      rw [upload_uac_results] at h
      simp [he, hs] at h
      simp [uacReachedVerify, he, hs, h]
    | true =>
    cases h4 : env.urlOk with
    | false =>
      rw [upload_uac_results] at h
      simp [he, hs, h4] at h
      simp [uacReachedVerify, he, hs, h4, h]
    | true =>
    cases h5 : env.uploadStartOk with
    | false =>
      rw [upload_uac_results] at h
      simp [he, hs, h4, h5] at h
      simp [uacReachedVerify, he, hs, h4, h5, h]
    | true =>
    cases hr : (uacUpLoop env.restarts 0 1 true 2 env.monitor).1 with
    | none =>
      rw [upload_uac_results] at h
      simp [he, hs, h4, h5, hr] at h
    | some p =>
      rw [upload_uac_results] at h
      simp [he, hs, h4, h5, hr] at h
      simp [uacReachedVerify, he, hs, h4, h5, hr, h]

/-- C1: for both upload evacuations, the boolean returned to the caller is
true iff the final HEAD verification on the destination object succeeded;
whatever the monitoring loop observed about the remote PUT process (zero
remaining processes, exit-code file contents, or the monitoring timeout)
never by itself yields success, since every loop exit leads to the same
final verification. -/
theorem c1_upload_head_authoritative (envK : KapeUpEnv) (envU : UacUpEnv)
    (bK bU : Bool)
    (hK : (upload_kape_results envK).1 = some bK)
    (hU : (upload_uac_results envU).1 = some bU) :
    (bK = true ↔ (kapeReachedVerify envK = true ∧
      verify_s3_upload envK.headFound (some envK.file_size) = true)) ∧
    (bU = true ↔ (uacReachedVerify envU = true ∧
      uacVerifyS3 envU.headFound envU.headFound2 = true)) :=
  ⟨upload_kape_results_ret envK bK hK, upload_uac_results_ret envU bU hU⟩

/-- C1 witness KAPE environment: all gates pass, the upload process count
reaches zero at 60 seconds, the HEAD finds the object at the expected
size. -/
def c1envK : KapeUpEnv := ⟨true, true, true, true, true, 4096, [⟨60, some 0⟩], some 4096⟩

/-- C1 witness UAC environment: an own session, a monitor that breaks out
at once, a HEAD that finds the object. -/
def c1envU : UacUpEnv := ⟨false, false, true, true, true, [.breakOut], [], some 512, none⟩

/-- C1 witness: the theorem applied at the two concrete uploads, both of
which return true and both of which reached a succeeding verification. -/
theorem c1_witness :
    (true = true ↔ (kapeReachedVerify c1envK = true ∧
      verify_s3_upload c1envK.headFound (some c1envK.file_size) = true)) ∧
    (true = true ↔ (uacReachedVerify c1envU = true ∧
      uacVerifyS3 c1envU.headFound c1envU.headFound2 = true)) :=
  c1_upload_head_authoritative c1envK c1envU true true (by decide) (by decide)

/- ===================================================================
   Session closure accounting
   (collectors.py download_kape_results, lines 2119-2231;
    uac_collector.py download_uac_results, lines 1232-1379;
    and the operations embedded above)
   =================================================================== -/

/-- The observations of one download_kape_results call (collectors.py
lines 2119-2231): sessionOk is start_session (line 2133); body collapses
the remaining download and verification outcome, none of which touches
session lifecycle; the finally clause closes the session on every exit
path (lines 2224-2231). -/
structure KapeDlEnv where
  sessionOk : Bool
  body : Bool
deriving DecidableEq, Repr

/-- Embedding of the session skeleton of download_kape_results. -/
def download_kape_results (env : KapeDlEnv) : Option Bool × List SessEvent :=
  if !env.sessionOk then (some false, [])
  else (some env.body, [.opened 0, .closed 0])

/-- The observations of one download_uac_results call (uac_collector.py
lines 1232-1379): existing is whether a session was passed in for reuse
(line 1256); startOk is start_session otherwise (line 1260); body
collapses the remaining outcome; the finally clause closes the session
only when the call created it (lines 1372-1379). -/
structure UacDlEnv where
  existing : Bool
  startOk : Bool
  body : Bool
deriving DecidableEq, Repr

/-- Embedding of the session skeleton of download_uac_results. -/
def download_uac_results (env : UacDlEnv) : Option Bool × List SessEvent :=
  if env.existing then (some env.body, [])
  else if !env.startOk then (some false, [])
  else (some env.body, [.opened 0, .closed 0])

/-- C4 counterexample: in upload_uac_results, when the progress check
loses the session, the recreation path first closes the current session
(uac_collector.py line 993) and, when start_session then fails, breaks out
with the session variable still naming the already-closed session; the
finally clause (line 1191) closes it a second time.  Session 1, opened
once by the operation, receives two end_session calls on this exit path,
refuting the claimed exactly-once closure. -/
theorem c4_counterexample :
    (upload_uac_results
      ⟨false, false, true, true, true, [.sessLost], [false], some 1, none⟩).2.count
      (SessEvent.opened 1) = 1 ∧
    (upload_uac_results
      ⟨false, false, true, true, true, [.sessLost], [false], some 1, none⟩).2.count
      (SessEvent.closed 1) = 2 := by
  decide

/-- Helper: session accounting of the recreation loop.  Every session index
is opened at most once and closed at most once inside the loop; no index
below nextId is opened; closes target only the entry session or
loop-opened ones; and at a normal exit every loop-opened session other
than the final one is closed, the entry session is closed whenever it is
not the final one, and the final session either is the unchanged entry
session or was opened by the loop with the created flag set. -/
theorem uacUpLoop_spec (restarts : List Bool) :
    ∀ (obs : List UObs) (attempts cur : ℕ) (created : Bool) (nextId : ℕ)
      (res : Option (ℕ × Bool)) (ev : List SessEvent),
      cur < nextId →
      uacUpLoop restarts attempts cur created nextId obs = (res, ev) →
      (∀ i, ev.count (.opened i) ≤ 1) ∧
      (∀ i, ev.count (.closed i) ≤ 1) ∧
      (∀ i, i < nextId → ev.count (.opened i) = 0) ∧
      (∀ i, 0 < ev.count (.closed i) → i = cur ∨ nextId ≤ i) ∧
      (∀ c cr, res = some (c, cr) →
        (∀ i, i ≠ c → ev.count (.opened i) ≤ ev.count (.closed i)) ∧
        (c ≠ cur → 1 ≤ ev.count (.closed cur)) ∧
        ((c = cur ∧ cr = created) ∨ (cr = true ∧ ev.count (.opened c) = 1))) := by
  intro obs
  induction obs with
  | nil =>
    intro attempts cur created nextId res ev hlt heq
    have h0 : uacUpLoop restarts attempts cur created nextId [] = (none, []) := rfl
    rw [h0] at heq
    cases heq
    refine ⟨by simp, by simp, by simp, by simp, ?_⟩
    intro c cr hc
    simp at hc
  | cons o rest ih =>
    intro attempts cur created nextId res ev hlt heq
    match o with
    | .breakOut =>
      have h0 : uacUpLoop restarts attempts cur created nextId (.breakOut :: rest) =
          (some (cur, created), []) := rfl
      rw [h0] at heq
      cases heq
      refine ⟨by simp, by simp, by simp, by simp, ?_⟩
      intro c cr hc
      simp at hc
      obtain ⟨rfl, rfl⟩ := hc
      exact ⟨fun i _ => by simp, fun hne => absurd rfl hne, Or.inl ⟨rfl, rfl⟩⟩
    | .keepGoing =>
      have h0 : uacUpLoop restarts attempts cur created nextId (.keepGoing :: rest) =
          uacUpLoop restarts attempts cur created nextId rest := rfl
      rw [h0] at heq
      exact ih attempts cur created nextId res ev hlt heq
    | .sessLost =>
      by_cases ha : attempts < 3
      · cases hg : restarts.getD attempts false with
        | false =>
          have h0 : uacUpLoop restarts attempts cur created nextId (.sessLost :: rest) =
              (some (cur, created), [.closed cur]) := by
            show (if attempts < 3 then _ else _) = _
            rw [if_pos ha, hg]
            simp
          rw [h0] at heq
          cases heq
          refine ⟨by simp, ?_, by simp, ?_, ?_⟩
          · intro i
            rcases eq_or_ne i cur with rfl | hi
            · simp
            · simp [List.count_cons, Ne.symm hi]
          · intro i hpos
            rcases eq_or_ne i cur with rfl | hi
            · exact Or.inl rfl
            · exfalso
              simp [List.count_cons, Ne.symm hi] at hpos
          · intro c cr hc
            simp at hc
            obtain ⟨rfl, rfl⟩ := hc
            exact ⟨fun i _ => by simp, fun hne => absurd rfl hne, Or.inl ⟨rfl, rfl⟩⟩
        | true =>
          have h0 : uacUpLoop restarts attempts cur created nextId (.sessLost :: rest) =
              ((uacUpLoop restarts (attempts + 1) nextId true (nextId + 1) rest).1,
               .closed cur :: .opened nextId ::
                 (uacUpLoop restarts (attempts + 1) nextId true (nextId + 1) rest).2) := by
            show (if attempts < 3 then _ else _) = _
            rw [if_pos ha, hg]
            simp
          rw [h0] at heq
          obtain ⟨A1, A2, A3, A4, A5⟩ :=
            ih (attempts + 1) nextId true (nextId + 1)
              (uacUpLoop restarts (attempts + 1) nextId true (nextId + 1) rest).1
              (uacUpLoop restarts (attempts + 1) nextId true (nextId + 1) rest).2
              (Nat.lt_succ_self nextId) rfl
          set r1 := (uacUpLoop restarts (attempts + 1) nextId true (nextId + 1) rest).1 with hr1
          set r2 := (uacUpLoop restarts (attempts + 1) nextId true (nextId + 1) rest).2 with hr2
          have hres : res = r1 := (congrArg Prod.fst heq).symm
          have hev : ev = .closed cur :: .opened nextId :: r2 := (congrArg Prod.snd heq).symm
          subst hres hev
          have hcnen : cur ≠ nextId := Nat.ne_of_lt hlt
          refine ⟨?_, ?_, ?_, ?_, ?_⟩
          · intro i
            by_cases hi : i = nextId
            · rw [hi]
              have := A3 nextId (Nat.lt_succ_self nextId)
              simp [List.count_cons, this]
            · have := A1 i
              simp [List.count_cons, Ne.symm hi]
              omega
          · intro i
            by_cases hi : i = cur
            · rw [hi]
              have hz : r2.count (.closed cur) = 0 := by
                by_contra hnz
                have hpos : 0 < r2.count (.closed cur) := Nat.pos_of_ne_zero hnz
                rcases A4 cur hpos with h | h
                · exact hcnen h
                · omega
              simp [List.count_cons, hz, hcnen]
            · have := A2 i
              simp [List.count_cons, Ne.symm hi]
              omega
          · intro i hilt
            have := A3 i (Nat.lt_succ_of_lt hilt)
            have hine : i ≠ nextId := Nat.ne_of_lt hilt
            simp [List.count_cons, this, Ne.symm hine]
          · intro i hpos
            by_cases hi : i = cur
            · exact Or.inl hi
            · simp [List.count_cons, Ne.symm hi] at hpos
              rcases A4 i (List.count_pos_iff.mpr hpos) with h | h
              · exact Or.inr (le_of_eq h.symm)
              · exact Or.inr (Nat.le_of_succ_le h)
          · intro c cr hc
            obtain ⟨Aa, Ab, Ac⟩ := A5 c cr hc
            have hopenc : r2.count (.opened nextId) = 0 := A3 nextId (Nat.lt_succ_self nextId)
            refine ⟨?_, ?_, ?_⟩
            · intro i hine
              by_cases hi : i = nextId
              · rw [hi]
                have hcne : c ≠ nextId := fun h => hine (h.trans hi.symm).symm
                have h1 : 1 ≤ r2.count (.closed nextId) := Ab hcne
                have hL : List.count (SessEvent.opened nextId)
                    (SessEvent.closed cur :: SessEvent.opened nextId :: r2) = 1 := by
                  simp [List.count_cons, hopenc]
                have hR : List.count (SessEvent.closed nextId)
                    (SessEvent.closed cur :: SessEvent.opened nextId :: r2)
                    = r2.count (SessEvent.closed nextId) := by
                  simp [List.count_cons, hcnen]
                rw [hL, hR]
                exact h1
              · have := Aa i hine
                rcases eq_or_ne cur i with hci | hci <;>
                  simp [List.count_cons, Ne.symm hi, hci] <;> omega
            · intro _
              simp [List.count_cons]
            · rcases Ac with ⟨rfl, rfl⟩ | ⟨hcr, hcnt⟩
              · refine Or.inr ⟨rfl, ?_⟩
                simp [List.count_cons, hopenc]
              · have hcne2 : c ≠ nextId := by
                  intro h
                  rw [h] at hcnt
                  rw [hopenc] at hcnt
                  exact absurd hcnt (by simp)
                refine Or.inr ⟨hcr, ?_⟩
                simp [List.count_cons, hcnt, Ne.symm hcne2]
      · have h0 : uacUpLoop restarts attempts cur created nextId (.sessLost :: rest) =
            (some (cur, created), []) := by
          show (if attempts < 3 then _ else _) = _
          rw [if_neg ha]
        rw [h0] at heq
        cases heq
        refine ⟨by simp, by simp, by simp, by simp, ?_⟩
        intro c cr hc
        simp at hc
        obtain ⟨rfl, rfl⟩ := hc
        exact ⟨fun i _ => by simp, fun hne => absurd rfl hne, Or.inl ⟨rfl, rfl⟩⟩

/-- Helper: a session that is opened and then closed appears in exact
balance, at most once on each side. -/
theorem sessPairBalance (n i : ℕ) :
    ([SessEvent.opened n, SessEvent.closed n] : List SessEvent).count (SessEvent.opened i)
      = ([SessEvent.opened n, SessEvent.closed n] : List SessEvent).count (SessEvent.closed i) ∧
    ([SessEvent.opened n, SessEvent.closed n] : List SessEvent).count (SessEvent.opened i) ≤ 1 := by
  rcases eq_or_ne i n with rfl | hi
  · simp [List.count_cons]
  · simp [List.count_cons, Ne.symm hi]

/-- Helper: closure accounting of the recreation loop at its entry state
(attempts 0, next index 2), specialised from the loop invariant: each
index is opened at most once and closed at most once, the entry index is
never opened by the loop, and on a normal exit every loop-opened index and
a loop-created entry index receive at least one close once the final
clean-up close of the exit session is added in. -/
theorem uacUpLoop_closure (restarts : List Bool) (monitor : List UObs)
    (cur0 c : ℕ) (cr created0 : Bool) (i : ℕ)
    (hcur : cur0 < 2)
    (h : (uacUpLoop restarts 0 cur0 created0 2 monitor).1 = some (c, cr)) :
    ((uacUpLoop restarts 0 cur0 created0 2 monitor).2.count (SessEvent.opened i) ≤ 1) ∧
    ((uacUpLoop restarts 0 cur0 created0 2 monitor).2.count (SessEvent.opened cur0) = 0) ∧
    ((uacUpLoop restarts 0 cur0 created0 2 monitor).2.count (SessEvent.closed i) ≤ 1) ∧
    (0 < (uacUpLoop restarts 0 cur0 created0 2 monitor).2.count (SessEvent.opened i) →
      1 ≤ (uacUpLoop restarts 0 cur0 created0 2 monitor).2.count (SessEvent.closed i)
        + (if cr = true ∧ c = i then 1 else 0)) ∧
    (created0 = true → i = cur0 →
      1 ≤ (uacUpLoop restarts 0 cur0 created0 2 monitor).2.count (SessEvent.closed i)
        + (if cr = true ∧ c = i then 1 else 0)) := by
  obtain ⟨A1, A2, A3, A4, A5⟩ :=
    uacUpLoop_spec restarts monitor 0 cur0 created0 2
      (uacUpLoop restarts 0 cur0 created0 2 monitor).1
      (uacUpLoop restarts 0 cur0 created0 2 monitor).2 hcur rfl
  obtain ⟨Aa, Ab, Ac⟩ := A5 c cr h
  set r2 := (uacUpLoop restarts 0 cur0 created0 2 monitor).2
  refine ⟨A1 i, A3 cur0 hcur, A2 i, ?_, ?_⟩
  · intro hpos
    have hi2 : 2 ≤ i := by
      by_contra hlt
      push_neg at hlt
      rw [A3 i hlt] at hpos
      exact absurd hpos (lt_irrefl 0)
    rcases eq_or_ne i c with rfl | hic
    · rcases Ac with ⟨hc0, _⟩ | ⟨hcr, _⟩
      · omega
      · rw [if_pos ⟨hcr, rfl⟩]
        omega
    · have hle := Aa i hic
      omega
  · intro hcr0 hicur
    rcases eq_or_ne c cur0 with hccur | hccur
    · have hcr : cr = true := by
        rcases Ac with ⟨_, h2⟩ | ⟨h2, _⟩
        · rw [h2, hcr0]
        · exact h2
      rw [if_pos ⟨hcr, hccur.trans hicur.symm⟩]
      omega
    · rw [hicur]
      have := Ab hccur
      omega

/-- Helper: session accounting of upload_uac_results on determined runs:
each index is opened at most once, and an opened index is closed at least
once and at most twice over the whole call. -/
theorem upload_uac_results_sessions (env : UacUpEnv) (b : Bool) (i : ℕ)
    (h : (upload_uac_results env).1 = some b) :
    (upload_uac_results env).2.count (SessEvent.opened i) ≤ 1 ∧
    (0 < (upload_uac_results env).2.count (SessEvent.opened i) →
      1 ≤ (upload_uac_results env).2.count (SessEvent.closed i) ∧
      (upload_uac_results env).2.count (SessEvent.closed i) ≤ 2) := by
  cases he : env.existing with
  | true =>
    cases ht : env.testOk with
    | true =>
      cases h4 : env.urlOk with
      | false =>
        have h2ev : (upload_uac_results env).2 = [] := by
          rw [upload_uac_results]
          simp [he, ht, h4]
        rw [h2ev]
        simp
      | true =>
      cases h5 : env.uploadStartOk with
      | false =>
        have h2ev : (upload_uac_results env).2 = [] := by
          rw [upload_uac_results]
          simp [he, ht, h4, h5]
        rw [h2ev]
        simp
      | true =>
      cases hr : (uacUpLoop env.restarts 0 0 false 2 env.monitor).1 with
      | none =>
        rw [upload_uac_results] at h
        simp [he, ht, h4, h5, hr] at h
      | some p =>
        obtain ⟨c, cr⟩ := p
        have h2ev : (upload_uac_results env).2
            = (uacUpLoop env.restarts 0 0 false 2 env.monitor).2 ++
              (if cr = true then [SessEvent.closed c] else []) := by
          rw [upload_uac_results]
          simp [he, ht, h4, h5, hr]
        obtain ⟨C1, C0, C2, C3, C4⟩ :=
          uacUpLoop_closure env.restarts env.monitor 0 c cr false i (by norm_num) hr
        have htail_o : (if cr = true then [SessEvent.closed c] else []).count
            (SessEvent.opened i) = 0 := by
          cases cr <;> simp
        have htail_c : (if cr = true then [SessEvent.closed c] else []).count
            (SessEvent.closed i) = (if cr = true ∧ c = i then 1 else 0) := by
          cases cr
          · simp
          · rcases eq_or_ne c i with rfl | hj
            · simp
            · simp [List.count_cons, hj]
        have hif : (if cr = true ∧ c = i then 1 else 0) ≤ 1 := by split <;> norm_num
        rw [h2ev]
        simp only [List.count_append, htail_o, htail_c]
        refine ⟨by omega, fun hpos => ?_⟩
        have hC3 := C3 (by omega)
        exact ⟨by omega, by omega⟩
    | false =>
      cases hs : env.startOk with
      | false =>
        have h2ev : (upload_uac_results env).2 = [] := by
          rw [upload_uac_results]
          simp [he, ht, hs]
        rw [h2ev]
        simp
      | true =>
      cases h4 : env.urlOk with
      | false =>
        have h2ev : (upload_uac_results env).2
            = [SessEvent.opened 1, SessEvent.closed 1] := by
          rw [upload_uac_results]
          simp [he, ht, hs, h4]
        rw [h2ev]
        obtain ⟨hb, hle⟩ := sessPairBalance 1 i
        exact ⟨hle, fun hpos => by omega⟩
      | true =>
      cases h5 : env.uploadStartOk with
      | false =>
        have h2ev : (upload_uac_results env).2
            = [SessEvent.opened 1, SessEvent.closed 1] := by
          rw [upload_uac_results]
          simp [he, ht, hs, h4, h5]
        rw [h2ev]
        obtain ⟨hb, hle⟩ := sessPairBalance 1 i
        exact ⟨hle, fun hpos => by omega⟩
      | true =>
      cases hr : (uacUpLoop env.restarts 0 1 true 2 env.monitor).1 with
      | none =>
        rw [upload_uac_results] at h
        simp [he, ht, hs, h4, h5, hr] at h
      | some p =>
        obtain ⟨c, cr⟩ := p
        have h2ev : (upload_uac_results env).2
            = [SessEvent.opened 1] ++
              ((uacUpLoop env.restarts 0 1 true 2 env.monitor).2 ++
               (if cr = true then [SessEvent.closed c] else [])) := by
          rw [upload_uac_results]
          simp [he, ht, hs, h4, h5, hr]
        obtain ⟨C1, C0, C2, C3, C4⟩ :=
          uacUpLoop_closure env.restarts env.monitor 1 c cr true i (by norm_num) hr
        have htail_o : (if cr = true then [SessEvent.closed c] else []).count
            (SessEvent.opened i) = 0 := by
          cases cr <;> simp
        have htail_c : (if cr = true then [SessEvent.closed c] else []).count
            (SessEvent.closed i) = (if cr = true ∧ c = i then 1 else 0) := by
          cases cr
          · simp
          · rcases eq_or_ne c i with rfl | hj
            · simp
            · simp [List.count_cons, hj]
        have hhead_o : ([SessEvent.opened 1] : List SessEvent).count (SessEvent.opened i)
            = (if i = 1 then 1 else 0) := by
          rcases eq_or_ne i 1 with rfl | hj
          · simp
          · simp [List.count_cons, hj, Ne.symm hj]
        have hhead_c : ([SessEvent.opened 1] : List SessEvent).count
            (SessEvent.closed i) = 0 := by simp
        have hif : (if cr = true ∧ c = i then 1 else 0) ≤ 1 := by split <;> norm_num
        rw [h2ev]
        simp only [List.count_append, htail_o, htail_c, hhead_o, hhead_c]
        rcases eq_or_ne i 1 with rfl | hi
        · rw [if_pos rfl]
          have hC4 := C4 rfl rfl
          exact ⟨by omega, fun _ => ⟨by omega, by omega⟩⟩
        · rw [if_neg hi]
          refine ⟨by omega, fun hpos => ?_⟩
          have hC3 := C3 (by omega)
          exact ⟨by omega, by omega⟩
  | false =>
    cases hs : env.startOk with
    | false =>
      have h2ev : (upload_uac_results env).2 = [] := by
        rw [upload_uac_results]
        simp [he, hs]
      rw [h2ev]
      simp
    | true =>
    cases h4 : env.urlOk with
    | false =>
      have h2ev : (upload_uac_results env).2
          = [SessEvent.opened 1, SessEvent.closed 1] := by
        rw [upload_uac_results]
        simp [he, hs, h4]
      rw [h2ev]
      obtain ⟨hb, hle⟩ := sessPairBalance 1 i
      exact ⟨hle, fun hpos => by omega⟩
    | true =>
    cases h5 : env.uploadStartOk with
    | false =>
      have h2ev : (upload_uac_results env).2
          = [SessEvent.opened 1, SessEvent.closed 1] := by
        rw [upload_uac_results]
        simp [he, hs, h4, h5]
      rw [h2ev]
      obtain ⟨hb, hle⟩ := sessPairBalance 1 i
      exact ⟨hle, fun hpos => by omega⟩
    | true =>
    cases hr : (uacUpLoop env.restarts 0 1 true 2 env.monitor).1 with
    | none =>
      rw [upload_uac_results] at h
      simp [he, hs, h4, h5, hr] at h
    | some p =>
      obtain ⟨c, cr⟩ := p
      have h2ev : (upload_uac_results env).2
          = [SessEvent.opened 1] ++
            ((uacUpLoop env.restarts 0 1 true 2 env.monitor).2 ++
             (if cr = true then [SessEvent.closed c] else [])) := by
        rw [upload_uac_results]
        simp [he, hs, h4, h5, hr]
      obtain ⟨C1, C0, C2, C3, C4⟩ :=
        uacUpLoop_closure env.restarts env.monitor 1 c cr true i (by norm_num) hr
      have htail_o : (if cr = true then [SessEvent.closed c] else []).count
          (SessEvent.opened i) = 0 := by
        cases cr <;> simp
      have htail_c : (if cr = true then [SessEvent.closed c] else []).count
          (SessEvent.closed i) = (if cr = true ∧ c = i then 1 else 0) := by
        cases cr
        · simp
        · rcases eq_or_ne c i with rfl | hj
          · simp
          · simp [List.count_cons, hj]
      have hhead_o : ([SessEvent.opened 1] : List SessEvent).count (SessEvent.opened i)
          = (if i = 1 then 1 else 0) := by
        rcases eq_or_ne i 1 with rfl | hj
        · simp
        · simp [List.count_cons, hj, Ne.symm hj]
      have hhead_c : ([SessEvent.opened 1] : List SessEvent).count
          (SessEvent.closed i) = 0 := by simp
      have hif : (if cr = true ∧ c = i then 1 else 0) ≤ 1 := by split <;> norm_num
      rw [h2ev]
      simp only [List.count_append, htail_o, htail_c, hhead_o, hhead_c]
      rcases eq_or_ne i 1 with rfl | hi
      · rw [if_pos rfl]
        have hC4 := C4 rfl rfl
        exact ⟨by omega, fun _ => ⟨by omega, by omega⟩⟩
      · rw [if_neg hi]
        refine ⟨by omega, fun hpos => ?_⟩
        have hC3 := C3 (by omega)
        exact ⟨by omega, by omega⟩

/-- Helper: run_kape_collection opens and closes its session in exact
balance, each index at most once. -/
theorem run_kape_collection_sessions (env : KapeRunEnv) (i : ℕ) :
    (run_kape_collection env).events.count (SessEvent.opened i)
      = (run_kape_collection env).events.count (SessEvent.closed i) ∧
    (run_kape_collection env).events.count (SessEvent.opened i) ≤ 1 := by
  by_cases hp : env.prepOk
  · by_cases hs : env.sessionOk
    · by_cases hc : ensure_clean_environment env.clean .windows
      · have h2ev : (run_kape_collection env).events
            = [SessEvent.opened 0, SessEvent.closed 0] := by
          rw [run_kape_collection]
          simp [hp, hs, hc]
        rw [h2ev]
        exact sessPairBalance 0 i
      · have h2ev : (run_kape_collection env).events
            = [SessEvent.opened 0, SessEvent.closed 0] := by
          rw [run_kape_collection]
          simp [hp, hs, hc]
        rw [h2ev]
        exact sessPairBalance 0 i
    · have h2ev : (run_kape_collection env).events = [] := by
        rw [run_kape_collection]
        simp [hp, hs]
      rw [h2ev]
      simp
  · have h2ev : (run_kape_collection env).events = [] := by
      rw [run_kape_collection]
      simp [hp]
    rw [h2ev]
    simp

/-- Helper: run_uac_collection opens and closes its session in exact
balance, each index at most once. -/
theorem run_uac_collection_sessions (env : UacRunEnv) (i : ℕ) :
    (run_uac_collection env).events.count (SessEvent.opened i)
      = (run_uac_collection env).events.count (SessEvent.closed i) ∧
    (run_uac_collection env).events.count (SessEvent.opened i) ≤ 1 := by
  by_cases hp : env.prepOk
  · by_cases hs : env.sessionOk
    · by_cases hc : ensure_clean_environment env.clean .unix
      · have h2ev : (run_uac_collection env).events
            = [SessEvent.opened 0, SessEvent.closed 0] := by
          rw [run_uac_collection]
          simp [hp, hs, hc]
        rw [h2ev]
        exact sessPairBalance 0 i
      · have h2ev : (run_uac_collection env).events
            = [SessEvent.opened 0, SessEvent.closed 0] := by
          rw [run_uac_collection]
          simp [hp, hs, hc]
        rw [h2ev]
        exact sessPairBalance 0 i
    · have h2ev : (run_uac_collection env).events = [] := by
        rw [run_uac_collection]
        simp [hp, hs]
      rw [h2ev]
      simp
  · have h2ev : (run_uac_collection env).events = [] := by
      rw [run_uac_collection]
      simp [hp]
    rw [h2ev]
    simp

/-- Helper: upload_kape_results on determined runs opens and closes its
session in exact balance, each index at most once. -/
theorem upload_kape_results_sessions (env : KapeUpEnv) (b : Bool) (i : ℕ)
    (h : (upload_kape_results env).1 = some b) :
    (upload_kape_results env).2.count (SessEvent.opened i)
      = (upload_kape_results env).2.count (SessEvent.closed i) ∧
    (upload_kape_results env).2.count (SessEvent.opened i) ≤ 1 := by
  by_cases h1 : env.sessionOk
  · by_cases h2 : env.lsOk
    · by_cases h3 : env.archiveFound
      · by_cases h4 : env.urlOk
        · by_cases h5 : env.zipStable
          · cases hm : kapeUploadMonitor (kapeUploadWait env.file_size) env.monitor with
            | none =>
              rw [upload_kape_results] at h
              simp [h1, h2, h3, h4, h5, hm] at h
            | some u =>
              have h2ev : (upload_kape_results env).2
                  = [SessEvent.opened 0, SessEvent.closed 0] := by
                rw [upload_kape_results]
                simp [h1, h2, h3, h4, h5, hm]
              rw [h2ev]
              exact sessPairBalance 0 i
          · have h2ev : (upload_kape_results env).2
                = [SessEvent.opened 0, SessEvent.closed 0] := by
              rw [upload_kape_results]
              simp [h1, h2, h3, h4, h5]
            rw [h2ev]
            exact sessPairBalance 0 i
        · have h2ev : (upload_kape_results env).2
              = [SessEvent.opened 0, SessEvent.closed 0] := by
            rw [upload_kape_results]
            simp [h1, h2, h3, h4]
          rw [h2ev]
          exact sessPairBalance 0 i
      · have h2ev : (upload_kape_results env).2
            = [SessEvent.opened 0, SessEvent.closed 0] := by
          rw [upload_kape_results]
          simp [h1, h2, h3]
        rw [h2ev]
        exact sessPairBalance 0 i
    · have h2ev : (upload_kape_results env).2
          = [SessEvent.opened 0, SessEvent.closed 0] := by
        rw [upload_kape_results]
        simp [h1, h2]
      rw [h2ev]
      exact sessPairBalance 0 i
  · have h2ev : (upload_kape_results env).2 = [] := by
      rw [upload_kape_results]
      simp [h1]
    rw [h2ev]
    simp

/-- Helper: download_kape_results opens and closes its session in exact
balance, each index at most once. -/
theorem download_kape_results_sessions (env : KapeDlEnv) (i : ℕ) :
    (download_kape_results env).2.count (SessEvent.opened i)
      = (download_kape_results env).2.count (SessEvent.closed i) ∧
    (download_kape_results env).2.count (SessEvent.opened i) ≤ 1 := by
  by_cases h1 : env.sessionOk
  · have h2ev : (download_kape_results env).2
        = [SessEvent.opened 0, SessEvent.closed 0] := by
      rw [download_kape_results]
      simp [h1]
    rw [h2ev]
    exact sessPairBalance 0 i
  · have h2ev : (download_kape_results env).2 = [] := by
      rw [download_kape_results]
      simp [h1]
    rw [h2ev]
    simp

/-- Helper: download_uac_results opens and closes its session in exact
balance, each index at most once; a reused session is neither opened nor
closed by the call. -/
theorem download_uac_results_sessions (env : UacDlEnv) (i : ℕ) :
    (download_uac_results env).2.count (SessEvent.opened i)
      = (download_uac_results env).2.count (SessEvent.closed i) ∧
    (download_uac_results env).2.count (SessEvent.opened i) ≤ 1 := by
  by_cases he : env.existing
  · have h2ev : (download_uac_results env).2 = [] := by
      rw [download_uac_results]
      simp [he]
    rw [h2ev]
    simp
  · by_cases hs : env.startOk
    · have h2ev : (download_uac_results env).2
          = [SessEvent.opened 0, SessEvent.closed 0] := by
        rw [download_uac_results]
        simp [he, hs]
      rw [h2ev]
      exact sessPairBalance 0 i
    · have h2ev : (download_uac_results env).2 = [] := by
        rw [download_uac_results]
        simp [he, hs]
      rw [h2ev]
      simp

/-- C4 (amended): session-closure accounting of the six collection
operations.  The two collection runs, the KAPE upload (on determined
runs) and the two downloads open and close sessions in exact balance,
each session at most once; the UAC upload (on determined runs) opens each
session at most once and invokes end_session on every session it opened
at least once, but up to twice: on the session-recreation-failure exit
path the already-closed session is closed a second time by the finally
clause, so the claimed exactly-once closure holds for five of the six
operations and weakens to at-least-once, at-most-twice closure for
upload_uac_results. -/
theorem c4_amended_session_closure
    (eK : KapeRunEnv) (eU : UacRunEnv) (eKu : KapeUpEnv) (eKd : KapeDlEnv)
    (eUd : UacDlEnv) (eUu : UacUpEnv) (bKu bUu : Bool) (i : ℕ)
    (hKu : (upload_kape_results eKu).1 = some bKu)
    (hUu : (upload_uac_results eUu).1 = some bUu) :
    ((run_kape_collection eK).events.count (SessEvent.opened i)
      = (run_kape_collection eK).events.count (SessEvent.closed i)) ∧
    ((run_uac_collection eU).events.count (SessEvent.opened i)
      = (run_uac_collection eU).events.count (SessEvent.closed i)) ∧
    ((upload_kape_results eKu).2.count (SessEvent.opened i)
      = (upload_kape_results eKu).2.count (SessEvent.closed i)) ∧
    ((download_kape_results eKd).2.count (SessEvent.opened i)
      = (download_kape_results eKd).2.count (SessEvent.closed i)) ∧
    ((download_uac_results eUd).2.count (SessEvent.opened i)
      = (download_uac_results eUd).2.count (SessEvent.closed i)) ∧
    ((upload_uac_results eUu).2.count (SessEvent.opened i) ≤ 1 ∧
      (0 < (upload_uac_results eUu).2.count (SessEvent.opened i) →
        1 ≤ (upload_uac_results eUu).2.count (SessEvent.closed i) ∧
        (upload_uac_results eUu).2.count (SessEvent.closed i) ≤ 2)) :=
  ⟨(run_kape_collection_sessions eK i).1,
   (run_uac_collection_sessions eU i).1,
   (upload_kape_results_sessions eKu bKu i hKu).1,
   (download_kape_results_sessions eKd i).1,
   (download_uac_results_sessions eUd i).1,
   upload_uac_results_sessions eUu bUu i hUu⟩

/-- C4 witness clean-run observation. -/
def c4clean : CleanEnv := ⟨[], true, false, true, true, [], true, some 0⟩

/-- C4 witness KAPE collection run. -/
def c4envK : KapeRunEnv := ⟨true, true, c4clean, some "x"⟩

/-- C4 witness UAC collection run. -/
def c4envU : UacRunEnv := ⟨true, true, c4clean, some "x"⟩

/-- C4 witness KAPE upload whose monitor breaks out at once and whose
HEAD verification succeeds. -/
def c4envKu : KapeUpEnv := ⟨true, true, true, true, true, 4096, [⟨60, some 0⟩], some 4096⟩

/-- C4 witness KAPE download. -/
def c4envKd : KapeDlEnv := ⟨true, true⟩

/-- C4 witness UAC download that opens its own session. -/
def c4envUd : UacDlEnv := ⟨false, true, true⟩

/-- C4 witness UAC upload taking the recreation-failure path: its own
session 1 is opened once and closed twice. -/
def c4envUu : UacUpEnv := ⟨false, false, true, true, true, [.sessLost], [false], some 1, none⟩

/-- C4 witness: the amended theorem applied at concrete environments and
session index 1, with both determinedness hypotheses discharged by
evaluation; the UAC upload run is the double-close trace. -/
theorem c4_witness :
    ((upload_kape_results c4envKu).1 = some true ∧
     (upload_uac_results c4envUu).1 = some true) ∧
    (((run_kape_collection c4envK).events.count (SessEvent.opened 1)
       = (run_kape_collection c4envK).events.count (SessEvent.closed 1)) ∧
     ((run_uac_collection c4envU).events.count (SessEvent.opened 1)
       = (run_uac_collection c4envU).events.count (SessEvent.closed 1)) ∧
     ((upload_kape_results c4envKu).2.count (SessEvent.opened 1)
       = (upload_kape_results c4envKu).2.count (SessEvent.closed 1)) ∧
     ((download_kape_results c4envKd).2.count (SessEvent.opened 1)
       = (download_kape_results c4envKd).2.count (SessEvent.closed 1)) ∧
     ((download_uac_results c4envUd).2.count (SessEvent.opened 1)
       = (download_uac_results c4envUd).2.count (SessEvent.closed 1)) ∧
     ((upload_uac_results c4envUu).2.count (SessEvent.opened 1) ≤ 1 ∧
       (0 < (upload_uac_results c4envUu).2.count (SessEvent.opened 1) →
         1 ≤ (upload_uac_results c4envUu).2.count (SessEvent.closed 1) ∧
         (upload_uac_results c4envUu).2.count (SessEvent.closed 1) ≤ 2))) :=
  ⟨⟨by decide, by decide⟩,
   c4_amended_session_closure c4envK c4envU c4envKu c4envKd c4envUd c4envUu
     true true 1 (by decide) (by decide)⟩

/- ===================================================================
   Batch orchestration
   (orchestrator_optimized.py OptimizedFalconForensicOrchestrator.
    run_kape_batch, lines 148-227)
   =================================================================== -/

/-- The observations of one run_kape_batch call (orchestrator_optimized.py
lines 148-227): resolve is the hostname lookup (the cached batch lookup of
line 170 or get_host_by_hostname of line 185), giving the CID of the host
info or none when no host info could be obtained; cidOk tells whether the
per-CID future completed without raising (line 211); perHost is the
outcome _process_kape_batch_for_cid reports for a host of a successful
CID future. -/
structure KapeBatchEnv where
  resolve : String → Option String
  cidOk : String → Bool
  perHost : String → Bool

/-- Embedding of run_kape_batch (orchestrator_optimized.py lines 148-227)
as the association list behind the returned results dict.  A hostname
whose lookup returns no host info is only logged (lines 181, 193) and
enters neither hosts_by_cid nor results; a resolved hostname receives the
per-host outcome of its CID future when it completed (line 212) and False
when it raised (line 217).  The per-CID grouping is flattened back to
target order: every per-host entry depends only on the host and its own
CID, so the merged dict has the same per-hostname content. -/
def run_kape_batch (env : KapeBatchEnv) :
    List (String × String) → List (String × Bool)
  | [] => []
  | (hostname, _) :: rest =>
    match env.resolve hostname with
    | none => run_kape_batch env rest
    | some cid =>
      (hostname, if env.cidOk cid then env.perHost hostname else false)
        :: run_kape_batch env rest

/-- C8 counterexample environment: host alpha does not resolve, host beta
resolves to cid1 whose processing succeeds. -/
def c8env : KapeBatchEnv :=
  ⟨fun h => if h == "beta" then some "cid1" else none, fun _ => true, fun _ => true⟩

/-- C8 counterexample: a hostname whose resolution fails is not recorded
as a failure entry in the returned result map at all: run_kape_batch only
logs it (orchestrator_optimized.py line 193) and never assigns
results[hostname], so the map has no entry for alpha, while the batch did
continue and recorded resolved host beta. -/
theorem c8_counterexample :
    (run_kape_batch c8env [("alpha", "t"), ("beta", "t")]).lookup "alpha" = none ∧
    (run_kape_batch c8env [("alpha", "t"), ("beta", "t")]).lookup "beta" = some true ∧
    ¬ ∃ b, (run_kape_batch c8env [("alpha", "t"), ("beta", "t")]).lookup "alpha" = some b := by
  refine ⟨by decide, by decide, ?_⟩
  rintro ⟨b, hb⟩
  rw [show (run_kape_batch c8env [("alpha", "t"), ("beta", "t")]).lookup "alpha"
      = none by decide] at hb
  exact Option.noConfusion hb

/-- The observations of one run_uac_batch call (orchestrator_optimized.py
lines 612-704): resolve is the hostname lookup (lines 637, 655), giving
the CID of the host info or none when no host info could be obtained;
isWindows is the platform check that skips Windows hosts (lines 641-643,
659-661); cidOk tells whether the per-CID future completed without
raising (line 686); perHost is the outcome _process_uac_batch_for_cid
reports for a host of a successful CID future. -/
structure UacBatchEnv where
  resolve : String → Option String
  isWindows : String → Bool
  cidOk : String → Bool
  perHost : String → Bool

/-- Embedding of the grouping-and-processing part of run_uac_batch
(orchestrator_optimized.py lines 626-689), flattened back to target order
as for run_kape_batch: an unresolved or Windows hostname enters neither
hosts_by_cid nor the merged cid_results, and unlike run_kape_batch the
exception branch (lines 688-689) only logs, so a raising CID future
contributes no entries here either. -/
def uacBatchProcess (env : UacBatchEnv) :
    List (String × String) → List (String × Bool)
  | [] => []
  | (hostname, _) :: rest =>
    match env.resolve hostname with
    | none => uacBatchProcess env rest
    | some cid =>
      if env.isWindows hostname then uacBatchProcess env rest
      else if env.cidOk cid then
        (hostname, env.perHost hostname) :: uacBatchProcess env rest
      else uacBatchProcess env rest

/-- Embedding of the backfill loop of run_uac_batch
(orchestrator_optimized.py lines 691-694): every target hostname not yet
in results receives a False entry, appended in target order to the
threaded results dict. -/
def uacBackfill : List (String × Bool) → List (String × String) → List (String × Bool)
  | results, [] => results
  | results, (hostname, _) :: rest =>
    if (results.lookup hostname).isSome then uacBackfill results rest
    else uacBackfill (results ++ [(hostname, false)]) rest

/-- Embedding of run_uac_batch (orchestrator_optimized.py lines 612-704)
as the association list behind the returned results dict: the per-CID
processing followed by the backfill of unprocessed targets. -/
def run_uac_batch (env : UacBatchEnv) (targets : List (String × String)) :
    List (String × Bool) :=
  uacBackfill (uacBatchProcess env targets) targets

/-- Helper: a key found in the left part of an appended association list
keeps its value. -/
theorem lookup_append_of_some (l1 l2 : List (String × Bool)) (k : String) (b : Bool)
    (h : l1.lookup k = some b) : (l1 ++ l2).lookup k = some b := by
  induction l1 with
  | nil => exact absurd h (by simp)
  | cons p rest ih =>
    obtain ⟨a, c⟩ := p
    cases hk : (k == a) with
    | true =>
      simp only [List.lookup, hk] at h
      simp only [List.cons_append, List.lookup, hk]
      exact h
    | false =>
      simp only [List.lookup, hk] at h
      simp only [List.cons_append, List.lookup, hk]
      exact ih h

/-- Helper: a key absent from the left part of an appended association
list is looked up in the right part. -/
theorem lookup_append_of_none (l1 l2 : List (String × Bool)) (k : String)
    (h : l1.lookup k = none) : (l1 ++ l2).lookup k = l2.lookup k := by
  induction l1 with
  | nil => simp
  | cons p rest ih =>
    obtain ⟨a, c⟩ := p
    cases hk : (k == a) with
    | true =>
      simp only [List.lookup, hk] at h
      exact Option.noConfusion h
    | false =>
      simp only [List.lookup, hk] at h
      simp only [List.cons_append, List.lookup, hk]
      exact ih h

/-- Helper: the backfill never changes an existing results entry. -/
theorem uacBackfill_preserves (targets : List (String × String)) :
    ∀ (results : List (String × Bool)) (k : String) (b : Bool),
      results.lookup k = some b → (uacBackfill results targets).lookup k = some b := by
  induction targets with
  | nil =>
    intro results k b h
    exact h
  | cons t rest ih =>
    intro results k b h
    obtain ⟨h0, t0⟩ := t
    rw [uacBackfill]
    by_cases hs : ((results.lookup h0).isSome = true)
    · rw [if_pos hs]
      exact ih results k b h
    · rw [if_neg hs]
      exact ih (results ++ [(h0, false)]) k b (lookup_append_of_some results _ k b h)

/-- Helper: after the backfill every target hostname has an entry. -/
theorem uacBackfill_covers (targets : List (String × String)) :
    ∀ (results : List (String × Bool)) (hn tgt : String),
      (hn, tgt) ∈ targets →
      ((uacBackfill results targets).lookup hn).isSome = true := by
  induction targets with
  | nil =>
    intro _ _ _ h
    cases h
  | cons t rest ih =>
    intro results hn tgt hmem
    obtain ⟨h0, t0⟩ := t
    rw [uacBackfill]
    by_cases hs : ((results.lookup h0).isSome = true)
    · rw [if_pos hs]
      rcases List.mem_cons.mp hmem with heq | h2
      · have hhn : hn = h0 := congrArg Prod.fst heq
        obtain ⟨b, hb⟩ := Option.isSome_iff_exists.mp hs
        rw [hhn, uacBackfill_preserves rest results h0 b hb]
        rfl
      · exact ih results hn tgt h2
    · rw [if_neg hs]
      by_cases hhn : hn = h0
      · have hnone : results.lookup h0 = none := by
          cases hc : results.lookup h0 with
          | none => rfl
          | some b =>
            rw [hc] at hs
            exact absurd rfl hs
        have hb : (results ++ [(h0, false)]).lookup hn = some false := by
          rw [hhn, lookup_append_of_none results _ h0 hnone]
          simp [List.lookup]
        rw [uacBackfill_preserves rest _ hn false hb]
        rfl
      · have h2 : (hn, tgt) ∈ rest := by
          rcases List.mem_cons.mp hmem with heq | h2
          · exact absurd (congrArg Prod.fst heq) hhn
          · exact h2
        exact ih (results ++ [(h0, false)]) hn tgt h2

/-- Helper: a target hostname with no results entry from the processing
phase is backfilled with a False entry. -/
theorem uacBackfill_unprocessed (targets : List (String × String)) :
    ∀ (results : List (String × Bool)) (hn tgt : String),
      (hn, tgt) ∈ targets → results.lookup hn = none →
      (uacBackfill results targets).lookup hn = some false := by
  induction targets with
  | nil =>
    intro _ _ _ h _
    cases h
  | cons t rest ih =>
    intro results hn tgt hmem hnone
    obtain ⟨h0, t0⟩ := t
    rw [uacBackfill]
    by_cases hs : ((results.lookup h0).isSome = true)
    · rw [if_pos hs]
      have h2 : (hn, tgt) ∈ rest := by
        rcases List.mem_cons.mp hmem with heq | h2
        · have hhn : hn = h0 := congrArg Prod.fst heq
          have hnone0 : results.lookup h0 = none := hhn ▸ hnone
          rw [hnone0] at hs
          exact absurd hs (by simp)
        · exact h2
      exact ih results hn tgt h2 hnone
    · rw [if_neg hs]
      by_cases hhn : hn = h0
      · have hb : (results ++ [(h0, false)]).lookup hn = some false := by
          rw [hhn, lookup_append_of_none results _ h0 (hhn ▸ hnone)]
          simp [List.lookup]
        exact uacBackfill_preserves rest _ hn false hb
      · have h2 : (hn, tgt) ∈ rest := by
          rcases List.mem_cons.mp hmem with heq | h2
          · exact absurd (congrArg Prod.fst heq) hhn
          · exact h2
        have hne : (hn == h0) = false := by
          rw [beq_eq_false_iff_ne]
          exact hhn
        have hnone2 : (results ++ [(h0, false)]).lookup hn = none := by
          rw [lookup_append_of_none results _ hn hnone]
          simp only [List.lookup, hne]
        exact ih (results ++ [(h0, false)]) hn tgt h2 hnone2

/-- Helper: the processing phase of run_uac_batch yields no entry for an
unresolved hostname. -/
theorem uacBatchProcess_unresolved (env : UacBatchEnv)
    (targets : List (String × String)) (hn : String)
    (hres : env.resolve hn = none) :
    (uacBatchProcess env targets).lookup hn = none := by
  induction targets with
  | nil => rfl
  | cons t rest ih =>
    obtain ⟨h0, t0⟩ := t
    cases hr0 : env.resolve h0 with
    | none =>
      rw [uacBatchProcess]
      simp only [hr0]
      exact ih
    | some cid =>
      rw [uacBatchProcess]
      simp only [hr0]
      by_cases hw : (env.isWindows h0 = true)
      · rw [if_pos hw]
        exact ih
      · rw [if_neg hw]
        by_cases hc : (env.cidOk cid = true)
        · rw [if_pos hc]
          have hne : (hn == h0) = false := by
            rw [beq_eq_false_iff_ne]
            intro he
            rw [← he, hres] at hr0
            exact Option.noConfusion hr0
          simp only [List.lookup, hne]
          exact ih
        · rw [if_neg hc]
          exact ih

/-- C8 (amended): the two batch entry points treat unresolved hostnames
differently.  In run_kape_batch a hostname whose resolution fails is
skipped silently: the returned map holds no entry for it, not a failure
entry; the batch does continue past it, and every target hostname that
resolves receives an entry, namely its CID future's per-host outcome when
the future completed and False when it raised.  In run_uac_batch the
final backfill records every unprocessed target hostname as a False
entry, so there an unresolved target hostname is recorded as a failure
and every target hostname has some entry. -/
theorem c8_unresolved_hosts (env : KapeBatchEnv) (envU : UacBatchEnv)
    (targets targetsU : List (String × String)) (hn hu : String) :
    (env.resolve hn = none →
      (run_kape_batch env targets).lookup hn = none) ∧
    (∀ tgt cid, (hn, tgt) ∈ targets → env.resolve hn = some cid →
      (run_kape_batch env targets).lookup hn
        = some (if env.cidOk cid then env.perHost hn else false)) ∧
    (∀ tgt, (hu, tgt) ∈ targetsU → envU.resolve hu = none →
      (run_uac_batch envU targetsU).lookup hu = some false) ∧
    (∀ tgt, (hu, tgt) ∈ targetsU →
      ((run_uac_batch envU targetsU).lookup hu).isSome = true) := by
  refine ⟨?_, ?_, ?_, ?_⟩
  · intro hres
    induction targets with
    | nil => rfl
    | cons t rest ih =>
      obtain ⟨h0, t0⟩ := t
      cases hr0 : env.resolve h0 with
      | none =>
        rw [run_kape_batch]
        simp only [hr0]
        exact ih
      | some cid =>
        have hne : (hn == h0) = false := by
          rw [beq_eq_false_iff_ne]
          intro he
          rw [← he, hres] at hr0
          exact Option.noConfusion hr0
        rw [run_kape_batch]
        simp only [hr0, List.lookup, hne]
        exact ih
  · intro tgt cid hmem hres
    induction targets with
    | nil => cases hmem
    | cons t rest ih =>
      obtain ⟨h0, t0⟩ := t
      by_cases hh : h0 = hn
      · subst hh
        rw [run_kape_batch]
        simp only [hres, List.lookup, beq_self_eq_true]
      · have hmem2 : (hn, tgt) ∈ rest := by
          rcases List.mem_cons.mp hmem with heq | h2
          · exact absurd (congrArg Prod.fst heq).symm hh
          · exact h2
        cases hr0 : env.resolve h0 with
        | none =>
          rw [run_kape_batch]
          simp only [hr0]
          exact ih hmem2
        | some cid0 =>
          have hne : (hn == h0) = false := by
            rw [beq_eq_false_iff_ne]
            exact fun he => hh he.symm
          rw [run_kape_batch]
          simp only [hr0, List.lookup, hne]
          exact ih hmem2
  · intro tgt hmem hres
    exact uacBackfill_unprocessed targetsU (uacBatchProcess envU targetsU) hu tgt hmem
      (uacBatchProcess_unresolved envU targetsU hu hres)
  · intro tgt hmem
    exact uacBackfill_covers targetsU (uacBatchProcess envU targetsU) hu tgt hmem

/-- C8 witness UAC batch environment: host alpha does not resolve, host
beta resolves to cid1 on a non-Windows platform whose processing
succeeds. -/
def c8envU : UacBatchEnv :=
  ⟨fun h => if h == "beta" then some "cid1" else none,
   fun _ => false, fun _ => true, fun _ => true⟩

/-- C8 witness: the amended theorem applied at the counterexample
batches: in run_kape_batch unresolved host gamma has no entry while
resolved host beta has its per-host outcome; in run_uac_batch unresolved
target alpha is backfilled as a False entry and target beta has an
entry. -/
theorem c8_witness :
    (run_kape_batch c8env [("alpha", "t"), ("beta", "t")]).lookup "gamma" = none ∧
    (run_kape_batch c8env [("alpha", "t"), ("beta", "t")]).lookup "beta"
      = some (if c8env.cidOk "cid1" then c8env.perHost "beta" else false) ∧
    (run_uac_batch c8envU [("alpha", "t"), ("beta", "t")]).lookup "alpha" = some false ∧
    ((run_uac_batch c8envU [("alpha", "t"), ("beta", "t")]).lookup "beta").isSome = true :=
  ⟨(c8_unresolved_hosts c8env c8envU [("alpha", "t"), ("beta", "t")]
      [("alpha", "t"), ("beta", "t")] "gamma" "alpha").1 (by decide),
   (c8_unresolved_hosts c8env c8envU [("alpha", "t"), ("beta", "t")]
      [("alpha", "t"), ("beta", "t")] "beta" "alpha").2.1 "t" "cid1"
     (by simp) (by decide),
   (c8_unresolved_hosts c8env c8envU [("alpha", "t"), ("beta", "t")]
      [("alpha", "t"), ("beta", "t")] "beta" "alpha").2.2.1 "t"
     (by simp) (by decide),
   (c8_unresolved_hosts c8env c8envU [("alpha", "t"), ("beta", "t")]
      [("alpha", "t"), ("beta", "t")] "beta" "beta").2.2.2 "t" (by simp)⟩
